import Mathlib

/-!
Verification development for the coursework-lifecycle engine of the
eduplatform API (Express + Prisma).  The route handlers of
`work.routes.js`, `submission.routes.js` and `evaluation.routes.js` are
embedded as pure functions over an explicit relational store `DB`.
Request bodies are records of `Option` fields (`none` models a JS
`undefined`/absent field); every handler returns the typed outcome
together with the post-state of the store, which equals the input store
on every failure path.
-/

namespace EduPlatform

/-- Roles carried by the JWT principal (`req.user.role`). -/
inductive Role
  | directeur
  | formateur
  | etudiant
deriving DecidableEq, Repr

/-- The authenticated principal: `req.user = { userId, role }`. -/
structure Principal where
  userId : Nat
  role : Role
deriving DecidableEq, Repr

/-- `typeTravail` enum: INDIVIDUEL | COLLECTIF. -/
inductive TypeTravail
  | individuel
  | collectif
deriving DecidableEq, Repr

/-- `modeGroupe` / `modeFormation` enum: NON_APPLICABLE | FORMATEUR | ETUDIANT. -/
inductive ModeGroupe
  | nonApplicable
  | formateurMode
  | etudiantMode
deriving DecidableEq, Repr

/-- `statut` of a Livraison: LIVRE (on time) | EN_RETARD (late). -/
inductive StatutLivraison
  | livre
  | enRetard
deriving DecidableEq, Repr

/-- Student profile row; `compteId` is the id of the owning account. -/
structure Etudiant where
  id : Nat
  compteId : Nat
deriving DecidableEq, Repr

/-- Instructor profile row. -/
structure Formateur where
  id : Nat
  compteId : Nat
deriving DecidableEq, Repr

/-- Director profile row. -/
structure Directeur where
  id : Nat
  compteId : Nat
deriving DecidableEq, Repr

/-- `travail` row (AssignableWork).  Dates are modelled as integers
(millisecond timestamps compare exactly as JS `Date` objects do). -/
structure Travail where
  id : Nat
  espacePedagogiqueId : Nat
  titre : String
  consignes : String
  typeTravail : TypeTravail
  modeGroupe : ModeGroupe
  dateDebut : Int
  dateFin : Int
  fichierConsigneUrl : Option String
  createurId : Nat
  estActif : Bool
deriving DecidableEq, Repr

/-- `affectationIndividuelle` row (IndividualAssignment); the store has a
unique constraint on (travailId, etudiantId). -/
structure AffectationIndividuelle where
  id : Nat
  travailId : Nat
  etudiantId : Nat
  estSupprime : Bool
deriving DecidableEq, Repr

/-- `groupeEtudiant` row (Group). -/
structure GroupeEtudiant where
  id : Nat
  travailId : Nat
  nomGroupe : String
  modeFormation : Option ModeGroupe
  createurId : Option Nat
deriving DecidableEq, Repr

/-- `membreGroupe` row (GroupMembership); unique on (groupeId, etudiantId). -/
structure MembreGroupe where
  groupeId : Nat
  etudiantId : Nat
deriving DecidableEq, Repr

/-- `livraison` row (Submission).  Exactly one of `affectationId` /
`groupeId` is set by the creating routes. -/
structure Livraison where
  id : Nat
  affectationId : Option Nat
  groupeId : Option Nat
  contenu : Option String
  fichierUrl : Option String
  dateLivraison : Int
  statut : StatutLivraison
deriving DecidableEq, Repr

/-- `evaluation` row.  `note` is kept as an integer (the claims only
involve the range checks, which are order comparisons). -/
structure Evaluation where
  id : Nat
  livraisonId : Nat
  note : Int
  commentaire : Option String
  evaluateurId : Option Nat
  dateEvaluation : Int
  dateModification : Option Int
  modificateurId : Option Nat
  raisonModification : Option String
deriving DecidableEq, Repr

/-- The relational store.  `nextId` supplies fresh autoincrement ids. -/
structure DB where
  etudiants : List Etudiant
  formateurs : List Formateur
  directeurs : List Directeur
  travaux : List Travail
  affectations : List AffectationIndividuelle
  groupes : List GroupeEtudiant
  membres : List MembreGroupe
  livraisons : List Livraison
  evaluations : List Evaluation
  nextId : Nat
deriving DecidableEq, Repr

/-- Typed failure outcomes; each constructor corresponds to one error
response of the routes (status code and French message noted). -/
inductive ApiError
  | missingFields
  | outOfRange
  | notFound
  | alreadyGraded
  | alreadyEvaluated
  | missingReason
  | forbidden
  | roleForbidden
  | profileNotFound
  | notStarted
  | wrongWorkType
  | invalidConfiguration
  | storeConstraint
deriving DecidableEq, Repr

/-- Outcome of one handler call: the typed result plus the post-state. -/
abbrev Outcome (α : Type) := Except ApiError α × DB

namespace DB

/-- prisma.livraison.findUnique where id. -/
def findLivraison (db : DB) (i : Nat) : Option Livraison :=
  db.livraisons.find? (fun l => l.id == i)

/-- The evaluations attached to one livraison (the `evaluations` include). -/
def evaluationsFor (db : DB) (lid : Nat) : List Evaluation :=
  db.evaluations.filter (fun e => e.livraisonId == lid)

/-- prisma.formateur.findUnique where compteId. -/
def findFormateurByCompte (db : DB) (uid : Nat) : Option Formateur :=
  db.formateurs.find? (fun f => f.compteId == uid)

/-- prisma.directeur.findUnique where compteId. -/
def findDirecteurByCompte (db : DB) (uid : Nat) : Option Directeur :=
  db.directeurs.find? (fun d => d.compteId == uid)

/-- prisma.etudiant.findUnique where compteId. -/
def findEtudiantByCompte (db : DB) (uid : Nat) : Option Etudiant :=
  db.etudiants.find? (fun e => e.compteId == uid)

/-- prisma.etudiant.findUnique where id (resolves an include). -/
def findEtudiant (db : DB) (i : Nat) : Option Etudiant :=
  db.etudiants.find? (fun e => e.id == i)

/-- prisma.travail.findUnique where id. -/
def findTravail (db : DB) (i : Nat) : Option Travail :=
  db.travaux.find? (fun t => t.id == i)

/-- prisma.affectationIndividuelle.findUnique where id. -/
def findAffectation (db : DB) (i : Nat) : Option AffectationIndividuelle :=
  db.affectations.find? (fun a => a.id == i)

/-- prisma.groupeEtudiant.findUnique where id. -/
def findGroupe (db : DB) (i : Nat) : Option GroupeEtudiant :=
  db.groupes.find? (fun g => g.id == i)

/-- prisma.evaluation lookup by id (the target of the override update). -/
def findEvaluation (db : DB) (i : Nat) : Option Evaluation :=
  db.evaluations.find? (fun e => e.id == i)

/-- Whether an IndividualAssignment row exists for (travail, etudiant);
this is the unique constraint a duplicate bulk insert trips over. -/
def hasAffectation (db : DB) (wid sid : Nat) : Bool :=
  db.affectations.any (fun a => a.travailId == wid && a.etudiantId == sid)

/-- Whether a membership row exists for (groupe, etudiant). -/
def hasMembre (db : DB) (gid sid : Nat) : Bool :=
  db.membres.any (fun m => m.groupeId == gid && m.etudiantId == sid)

/-- prisma.membreGroupe.findFirst where groupeId and etudiantId. -/
def findMembre (db : DB) (gid sid : Nat) : Option MembreGroupe :=
  db.membres.find? (fun m => m.groupeId == gid && m.etudiantId == sid)

end DB

/-! ## Grading Ledger (evaluation.routes.js) -/

/-- Body of POST /evaluations. -/
structure GradeBody where
  livraisonId : Option Nat
  note : Option Int
  commentaire : Option String
deriving DecidableEq, Repr

/-- POST /evaluations — create the single Evaluation of a Livraison.
Route gate: authorizeRoles(FORMATEUR, DIRECTEUR). -/
def grade (db : DB) (p : Principal) (body : GradeBody) (now : Int) :
    Outcome Evaluation :=
  if p.role ≠ Role.formateur ∧ p.role ≠ Role.directeur then
    (.error .roleForbidden, db)
  else
    match body.livraisonId, body.note with
    | none, _ => (.error .missingFields, db)
    | _, none => (.error .missingFields, db)
    | some lid, some note =>
      if note < 0 ∨ 20 < note then (.error .outOfRange, db)
      else
        match db.findLivraison lid with
        | none => (.error .notFound, db)
        | some _ =>
          if 0 < (db.evaluationsFor lid).length then (.error .alreadyGraded, db)
          else
            let formateur := db.findFormateurByCompte p.userId
            if formateur = none ∧ p.role ≠ Role.directeur then
              (.error .profileNotFound, db)
            else
              let ev : Evaluation :=
                { id := db.nextId
                  livraisonId := lid
                  note := note
                  commentaire := body.commentaire
                  evaluateurId := formateur.map Formateur.id
                  dateEvaluation := now
                  dateModification := none
                  modificateurId := none
                  raisonModification := none }
              (.ok ev,
               { db with evaluations := db.evaluations ++ [ev],
                         nextId := db.nextId + 1 })

/-- Body of PUT /evaluations/:id. -/
structure OverrideBody where
  note : Option Int
  commentaire : Option String
  raisonModification : Option String
deriving DecidableEq, Repr

/-- PUT /evaluations/:id — director-only override of an Evaluation.
A JS falsy `raisonModification` (absent or empty string) is rejected. -/
def overrideEvaluation (db : DB) (p : Principal) (evalId : Nat)
    (body : OverrideBody) (now : Int) : Outcome Evaluation :=
  if p.role ≠ Role.directeur then (.error .roleForbidden, db)
  else if body.raisonModification = none ∨ body.raisonModification = some "" then
    (.error .missingReason, db)
  else if (match body.note with | some n => decide (n < 0 ∨ 20 < n) | none => false) = true then
    (.error .outOfRange, db)
  else
    match db.findDirecteurByCompte p.userId with
    | none => (.error .profileNotFound, db)
    | some d =>
      match db.findEvaluation evalId with
      | none => (.error .notFound, db)
      | some e0 =>
        let e1 : Evaluation :=
          { e0 with
            note := body.note.getD e0.note
            commentaire := match body.commentaire with
                           | some c => some c
                           | none => e0.commentaire
            dateModification := some now
            modificateurId := some d.id
            raisonModification := body.raisonModification }
        (.ok e1,
         { db with evaluations :=
             db.evaluations.map (fun e => if e.id == evalId then e1 else e) })

/-! ## Submission Tracker (submission.routes.js) -/

/-- Body of the submit / amend routes. -/
structure SubmissionBody where
  contenu : Option String
  fichierUrl : Option String
deriving DecidableEq, Repr

/-- statut = now > travail.dateFin ? EN_RETARD : LIVRE. -/
def computeStatut (now dateFin : Int) : StatutLivraison :=
  if dateFin < now then .enRetard else .livre

/-- The update data of the submit routes: refresh contenu / fichierUrl
(when supplied) and always refresh dateLivraison and statut. -/
def refreshLivraison (l0 : Livraison) (body : SubmissionBody) (now : Int)
    (statut : StatutLivraison) : Livraison :=
  { l0 with
    contenu := match body.contenu with
               | some c => some c
               | none => l0.contenu
    fichierUrl := match body.fichierUrl with
                  | some u => some u
                  | none => l0.fichierUrl
    dateLivraison := now
    statut := statut }

/-- Shared tail of both submit routes: upsert the Livraison of the given
owner (the findFirst filter), refreshing contenu / fichierUrl /
dateLivraison / statut on update; on create, `dateLivraison` takes the
store default now(). -/
def upsertLivraison (db : DB) (ownerFilter : Livraison → Bool)
    (mkNew : Nat → Livraison) (body : SubmissionBody) (now : Int)
    (statut : StatutLivraison) : Outcome Livraison :=
  match db.livraisons.find? ownerFilter with
  | some l0 =>
    let l1 := refreshLivraison l0 body now statut
    (.ok l1,
     { db with livraisons :=
         db.livraisons.map (fun l => if l.id == l0.id then l1 else l) })
  | none =>
    let l : Livraison := mkNew db.nextId
    (.ok l,
     { db with livraisons := db.livraisons ++ [l], nextId := db.nextId + 1 })

/-- POST /submissions/individual/:affectationId (ETUDIANT only). -/
def submitIndividual (db : DB) (p : Principal) (affectationId : Nat)
    (body : SubmissionBody) (now : Int) : Outcome Livraison :=
  if p.role ≠ Role.etudiant then (.error .roleForbidden, db)
  else if body.contenu = none ∧ body.fichierUrl = none then
    (.error .missingFields, db)
  else
    match db.findAffectation affectationId with
    | none => (.error .notFound, db)
    | some aff =>
      match db.findEtudiant aff.etudiantId, db.findTravail aff.travailId with
      | some etu, some travail =>
        if etu.compteId ≠ p.userId then (.error .forbidden, db)
        else if now < travail.dateDebut then (.error .notStarted, db)
        else
          upsertLivraison db (fun l => l.affectationId == some affectationId)
            (fun fresh =>
              { id := fresh
                affectationId := some affectationId
                groupeId := none
                contenu := body.contenu
                fichierUrl := body.fichierUrl
                dateLivraison := now
                statut := computeStatut now travail.dateFin })
            body now (computeStatut now travail.dateFin)
      | _, _ => (.error .notFound, db)

/-- POST /submissions/group/:groupeId (ETUDIANT only).  The route reads
the student profile before the membership check (a missing profile makes
the JS handler throw; modelled as profileNotFound). -/
def submitGroup (db : DB) (p : Principal) (groupeId : Nat)
    (body : SubmissionBody) (now : Int) : Outcome Livraison :=
  if p.role ≠ Role.etudiant then (.error .roleForbidden, db)
  else if body.contenu = none ∧ body.fichierUrl = none then
    (.error .missingFields, db)
  else
    match db.findEtudiantByCompte p.userId with
    | none => (.error .profileNotFound, db)
    | some etu =>
      match db.findMembre groupeId etu.id with
      | none => (.error .forbidden, db)
      | some _ =>
        match db.findGroupe groupeId with
        | none => (.error .notFound, db)
        | some groupe =>
          match db.findTravail groupe.travailId with
          | none => (.error .notFound, db)
          | some travail =>
            if now < travail.dateDebut then (.error .notStarted, db)
            else
              upsertLivraison db (fun l => l.groupeId == some groupeId)
                (fun fresh =>
                  { id := fresh
                    affectationId := none
                    groupeId := some groupeId
                    contenu := body.contenu
                    fichierUrl := body.fichierUrl
                    dateLivraison := now
                    statut := computeStatut now travail.dateFin })
                body now (computeStatut now travail.dateFin)

/-- Ownership test of PUT/DELETE /submissions/:id: the livraison's
affectation belongs to the caller's account, or the caller's account is
one of the owning group's members (resolved through the includes). -/
def hasAccessLivraison (db : DB) (l : Livraison) (uid : Nat) : Bool :=
  (match l.affectationId with
   | some aid =>
     match db.findAffectation aid with
     | some aff =>
       match db.findEtudiant aff.etudiantId with
       | some etu => etu.compteId == uid
       | none => false
     | none => false
   | none => false)
  ||
  (match l.groupeId with
   | some gid =>
     (db.membres.filter (fun m => m.groupeId == gid)).any
       (fun m =>
         match db.findEtudiant m.etudiantId with
         | some etu => etu.compteId == uid
         | none => false)
   | none => false)

/-- PUT /submissions/:id (ETUDIANT only) — amend before evaluation.
statut is not part of the update data. -/
def amendLivraison (db : DB) (p : Principal) (livId : Nat)
    (body : SubmissionBody) (now : Int) : Outcome Livraison :=
  if p.role ≠ Role.etudiant then (.error .roleForbidden, db)
  else
    match db.findLivraison livId with
    | none => (.error .notFound, db)
    | some l =>
      if ¬ hasAccessLivraison db l p.userId then (.error .forbidden, db)
      else if 0 < (db.evaluationsFor livId).length then
        (.error .alreadyEvaluated, db)
      else
        let l1 : Livraison :=
          { l with
            contenu := match body.contenu with
                       | some c => some c
                       | none => l.contenu
            fichierUrl := match body.fichierUrl with
                          | some u => some u
                          | none => l.fichierUrl
            dateLivraison := now }
        (.ok l1,
         { db with livraisons :=
             db.livraisons.map (fun x => if x.id == livId then l1 else x) })

/-- DELETE /submissions/:id (ETUDIANT only) — withdraw before evaluation. -/
def withdrawLivraison (db : DB) (p : Principal) (livId : Nat) :
    Outcome Unit :=
  if p.role ≠ Role.etudiant then (.error .roleForbidden, db)
  else
    match db.findLivraison livId with
    | none => (.error .notFound, db)
    | some l =>
      if ¬ hasAccessLivraison db l p.userId then (.error .forbidden, db)
      else if 0 < (db.evaluationsFor livId).length then
        (.error .alreadyEvaluated, db)
      else
        (.ok (),
         { db with livraisons := db.livraisons.filter (fun x => ¬ x.id == livId) })

/-! ## Assignment Distributor and Group Formation Manager (work.routes.js) -/

/-- Body of POST /works. -/
structure WorkBody where
  espacePedagogiqueId : Option Nat
  titre : Option String
  consignes : Option String
  typeTravail : Option TypeTravail
  modeGroupe : Option ModeGroupe
  dateDebut : Option Int
  dateFin : Option Int
  fichierConsigneUrl : Option String
deriving DecidableEq, Repr

/-- POST /works (FORMATEUR or DIRECTEUR): finalModeGroupe is forced to
NON_APPLICABLE for an INDIVIDUEL work; a COLLECTIF work whose
modeGroupe resolves to NON_APPLICABLE is rejected. -/
def createWork (db : DB) (p : Principal) (body : WorkBody) : Outcome Travail :=
  if p.role ≠ Role.formateur ∧ p.role ≠ Role.directeur then
    (.error .roleForbidden, db)
  else
    match body.espacePedagogiqueId, body.titre, body.consignes,
          body.typeTravail, body.dateDebut, body.dateFin with
    | some esp, some titre, some consignes, some typeT, some dateDebut, some dateFin =>
      match db.findFormateurByCompte p.userId with
      | none => (.error .profileNotFound, db)
      | some f =>
        let finalModeGroupe :=
          if typeT = TypeTravail.individuel then ModeGroupe.nonApplicable
          else body.modeGroupe.getD ModeGroupe.nonApplicable
        if typeT = TypeTravail.collectif ∧ finalModeGroupe = ModeGroupe.nonApplicable then
          (.error .invalidConfiguration, db)
        else
          let t : Travail :=
            { id := db.nextId
              espacePedagogiqueId := esp
              titre := titre
              consignes := consignes
              typeTravail := typeT
              modeGroupe := finalModeGroupe
              dateDebut := dateDebut
              dateFin := dateFin
              fichierConsigneUrl := body.fichierConsigneUrl
              createurId := f.id
              estActif := true }
          (.ok t, { db with travaux := db.travaux ++ [t], nextId := db.nextId + 1 })
    | _, _, _, _, _, _ => (.error .missingFields, db)

/-- One step of the duplicate-tolerant bulk insert: the create inside
the transaction either succeeds or its store failure — the
(travailId, etudiantId) unique-constraint violation or the etudiant
foreign-key violation for a nonexistent student id — is caught
(`.catch(() => null)`) and the id is skipped. -/
def assignStep (wid : Nat) (acc : DB × Nat) (sid : Nat) : DB × Nat :=
  match acc with
  | (db, count) =>
    if db.hasAffectation wid sid ∨ db.findEtudiant sid = none then (db, count)
    else
      ({ db with
         affectations := db.affectations ++
           [{ id := db.nextId, travailId := wid, etudiantId := sid,
              estSupprime := false }]
         nextId := db.nextId + 1 },
       count + 1)

/-- POST /works/:id/assign-individual (FORMATEUR or DIRECTEUR): returns
the successCount of newly created assignments. -/
def assignIndividual (db : DB) (p : Principal) (workId : Nat)
    (etudiantIds : List Nat) : Outcome Nat :=
  if p.role ≠ Role.formateur ∧ p.role ≠ Role.directeur then
    (.error .roleForbidden, db)
  else
    match db.findTravail workId with
    | none => (.error .notFound, db)
    | some travail =>
      if travail.typeTravail ≠ TypeTravail.individuel then
        (.error .wrongWorkType, db)
      else
        let r := etudiantIds.foldl (assignStep workId) (db, 0)
        (.ok r.2, r.1)

/-- Body of POST /works/:id/groups. -/
structure GroupBody where
  nomGroupe : Option String
  membresIds : Option (List Nat)
deriving DecidableEq, Repr

/-- One tx.membreGroupe.create: fails (throwing inside the transaction)
on the (groupeId, etudiantId) unique constraint or on a dangling
etudiant foreign key. -/
def createMembership (db : DB) (gid sid : Nat) : Option DB :=
  if db.hasMembre gid sid ∨ db.findEtudiant sid = none then none
  else some { db with membres := db.membres ++ [{ groupeId := gid, etudiantId := sid }] }

/-- All membership creates of the transaction, in order; the first
failure aborts the whole batch. -/
def createMemberships (db : DB) (gid : Nat) : List Nat → Option DB
  | [] => some db
  | sid :: rest =>
    match createMembership db gid sid with
    | none => none
    | some db1 => createMemberships db1 gid rest

/-- POST /works/:id/groups (any authenticated role): group creation.
The group row and all membership rows are created inside one
prisma.$transaction; a failing membership create rolls everything back,
surfacing as a thrown store error. -/
def createGroup (db : DB) (p : Principal) (workId : Nat) (body : GroupBody) :
    Outcome GroupeEtudiant :=
  match body.nomGroupe, body.membresIds with
  | some nomGroupe, some membresIds =>
    match db.findTravail workId with
    | none => (.error .notFound, db)
    | some travail =>
      if travail.typeTravail ≠ TypeTravail.collectif then
        (.error .wrongWorkType, db)
      else if p.role = Role.etudiant ∧ travail.modeGroupe ≠ ModeGroupe.etudiantMode then
        (.error .forbidden, db)
      else
        let createurId :=
          if p.role = Role.formateur then
            (db.findFormateurByCompte p.userId).map Formateur.id
          else none
        let modeFormation : Option ModeGroupe :=
          if p.role = Role.formateur then some .formateurMode
          else if p.role = Role.etudiant then some .etudiantMode
          else none
        let g : GroupeEtudiant :=
          { id := db.nextId
            travailId := workId
            nomGroupe := nomGroupe
            modeFormation := modeFormation
            createurId := createurId }
        let db1 := { db with groupes := db.groupes ++ [g], nextId := db.nextId + 1 }
        match createMemberships db1 g.id membresIds with
        | some db2 => (.ok g, db2)
        | none => (.error .storeConstraint, db)
  | _, _ => (.error .missingFields, db)

/-- Iterated grading: thread the store through a sequence of
POST /evaluations calls (principal, body, time). -/
def gradeCalls (db : DB) : List (Principal × GradeBody × Int) → DB
  | [] => db
  | c :: rest => gradeCalls (grade db c.1 c.2.1 c.2.2).2 rest

/-! ## Sample store rows used by witnesses and counterexamples -/

/-- An Individual work with window [100, 200]. -/
def travailInd : Travail :=
  { id := 1, espacePedagogiqueId := 1, titre := "T", consignes := "C",
    typeTravail := .individuel, modeGroupe := .nonApplicable,
    dateDebut := 100, dateFin := 200, fichierConsigneUrl := none,
    createurId := 1, estActif := true }

/-- A Collective work (student-formed) with window [100, 200]. -/
def travailColl : Travail :=
  { id := 2, espacePedagogiqueId := 1, titre := "G", consignes := "C",
    typeTravail := .collectif, modeGroupe := .etudiantMode,
    dateDebut := 100, dateFin := 200, fichierConsigneUrl := none,
    createurId := 1, estActif := true }

/-- A Collective work formed by the instructor, window [100, 200]. -/
def travailCollInstr : Travail :=
  { id := 3, espacePedagogiqueId := 1, titre := "H", consignes := "C",
    typeTravail := .collectif, modeGroupe := .formateurMode,
    dateDebut := 100, dateFin := 200, fichierConsigneUrl := none,
    createurId := 1, estActif := true }

/-- The sample livraison: submitted on time through affectation 1. -/
def livraison5 : Livraison :=
  { id := 5, affectationId := some 1, groupeId := none,
    contenu := some "x", fichierUrl := none,
    dateLivraison := 150, statut := .livre }

/-- A submitted, not-yet-graded store: student 1 (account 10) owns
livraison 5 through affectation 1. -/
def dbUngraded : DB :=
  { etudiants := [{ id := 1, compteId := 10 }, { id := 2, compteId := 20 }]
    formateurs := [{ id := 1, compteId := 30 }]
    directeurs := [{ id := 1, compteId := 40 }]
    travaux := [travailInd, travailColl, travailCollInstr]
    affectations := [{ id := 1, travailId := 1, etudiantId := 1, estSupprime := false }]
    groupes := []
    membres := []
    livraisons := [livraison5]
    evaluations := []
    nextId := 6 }

/-- The same store after livraison 5 was graded (evaluation 6). -/
def dbGraded : DB :=
  { dbUngraded with
    evaluations := [{ id := 6, livraisonId := 5, note := 15, commentaire := none,
                      evaluateurId := some 1, dateEvaluation := 160,
                      dateModification := none, modificateurId := none,
                      raisonModification := none }]
    nextId := 7 }

/-! ## List lemmas for keyed in-place updates -/

/-- A map that fixes every element of the list is the identity. -/
theorem map_id_of_mem {α : Type} (f : α → α) (xs : List α) (h : ∀ x ∈ xs, f x = x) :
    xs.map f = xs := by
  induction xs with
  | nil => rfl
  | cons x rest ih =>
    simp only [List.map_cons, h x (by simp), ih (fun y hy => h y (by simp [hy]))]

/-- Replacing, by key, the unique element found by `P` with an element
`l1` that still satisfies `P`: afterwards `P` selects exactly `[l1]` and
the non-`P` part of the list is untouched. -/
theorem filter_map_replace {α : Type} (P : α → Bool) (key : α → Nat) (l1 l0 : α)
    (xs : List α)
    (huniq : xs.Pairwise (fun a b => key a ≠ key b))
    (hfind : xs.find? P = some l0)
    (hcount : (xs.filter P).length ≤ 1)
    (hP1 : P l1 = true) :
    (xs.map (fun x => if key x == key l0 then l1 else x)).filter P = [l1] ∧
    (xs.map (fun x => if key x == key l0 then l1 else x)).filter (fun x => !(P x))
      = xs.filter (fun x => !(P x)) := by
  induction xs with
  | nil => simp at hfind
  | cons x rest ih =>
    rcases List.pairwise_cons.mp huniq with ⟨hx, hrest⟩
    by_cases hPx : P x = true
    · have hx0 : l0 = x := by
        have h := hfind
        rw [List.find?_cons_of_pos _ hPx] at h
        exact (Option.some_inj.mp h).symm
      subst hx0
      have hrestid : rest.map (fun y => if key y == key l0 then l1 else y) = rest := by
        apply map_id_of_mem
        intro y hy
        have hne : (key y == key l0) = false := beq_false_of_ne (Ne.symm (hx y hy))
        simp [hne]
      have hself : ((key l0 == key l0) : Bool) = true := by simp
      have hrestflt : rest.filter P = [] := by
        rw [List.filter_cons_of_pos hPx] at hcount
        simp only [List.length_cons] at hcount
        exact List.length_eq_zero.mp (by omega)
      constructor
      · simp only [List.map_cons, hself, if_true, hrestid]
        rw [List.filter_cons_of_pos hP1, hrestflt]
      · simp only [List.map_cons, hself, if_true, hrestid]
        rw [List.filter_cons_of_neg (by simp [hP1]), List.filter_cons_of_neg (by simp [hPx])]
    · have hPx2 : P x = false := by simpa using hPx
      have hfind2 : rest.find? P = some l0 := by
        have h := hfind
        rwa [List.find?_cons_of_neg _ (by simp [hPx2])] at h
      have hl0mem : l0 ∈ rest := List.mem_of_find?_eq_some hfind2
      have hkx : (key x == key l0) = false := beq_false_of_ne (hx l0 hl0mem)
      have hcount2 : (rest.filter P).length ≤ 1 := by
        rwa [List.filter_cons_of_neg (by simp [hPx2])] at hcount
      have ihr := ih hrest hfind2 hcount2
      constructor
      · simp only [List.map_cons, hkx, Bool.false_eq_true, if_false]
        rw [List.filter_cons_of_neg (by simp [hPx2])]
        exact ihr.1
      · simp only [List.map_cons, hkx, Bool.false_eq_true, if_false]
        rw [List.filter_cons_of_pos (by simp [hPx2]), List.filter_cons_of_pos (by simp [hPx2])]
        rw [ihr.2]

/-- Under pairwise-distinct keys, at most one element matches a key. -/
theorem filter_key_length_le_one {α : Type} (key : α → Nat) (k : Nat) (xs : List α)
    (huniq : xs.Pairwise (fun a b => key a ≠ key b)) :
    (xs.filter (fun x => key x == k)).length ≤ 1 := by
  induction xs with
  | nil => simp
  | cons x rest ih =>
    rcases List.pairwise_cons.mp huniq with ⟨hx, hrest⟩
    by_cases hk : ((fun x => key x == k) x) = true
    · have hkx : key x = k := by simpa using hk
      have hempty : rest.filter (fun y => key y == k) = [] := by
        rw [List.filter_eq_nil_iff]
        intro y hy
        have : key y ≠ k := by
          have := hx y hy
          omega
        simp [this]
      rw [show List.filter (fun x => key x == k) (x :: rest)
            = x :: List.filter (fun x => key x == k) rest from
          List.filter_cons_of_pos hk, hempty]
      simp
    · rw [show List.filter (fun x => key x == k) (x :: rest)
            = List.filter (fun x => key x == k) rest from
          List.filter_cons_of_neg (by simpa using hk)]
      exact ih hrest

/-! ## Submission Tracker lemmas -/

/-- Full specification of the upsert tail of the submit routes: the
owner ends with exactly one livraison, other owners' livraisons are
untouched, and the livraison is updated in place (same id, same total
count) when one existed, created (count + 1) otherwise. -/
theorem upsertLivraison_spec (db : DB) (P : Livraison → Bool) (mkNew : Nat → Livraison)
    (body : SubmissionBody) (now : Int) (statut : StatutLivraison)
    (huniq : db.livraisons.Pairwise (fun a b => a.id ≠ b.id))
    (hcount : (db.livraisons.filter P).length ≤ 1)
    (hPnew : P (mkNew db.nextId) = true)
    (hPupd : ∀ l0, P l0 = true → P (refreshLivraison l0 body now statut) = true) :
    ∃ l1, (upsertLivraison db P mkNew body now statut).1 = .ok l1 ∧
      (upsertLivraison db P mkNew body now statut).2.livraisons.filter P = [l1] ∧
      (upsertLivraison db P mkNew body now statut).2.livraisons.filter (fun x => !(P x))
        = db.livraisons.filter (fun x => !(P x)) ∧
      (∀ l0, db.livraisons.find? P = some l0 →
        l1 = refreshLivraison l0 body now statut ∧ l1.id = l0.id ∧
        (upsertLivraison db P mkNew body now statut).2.livraisons.length
          = db.livraisons.length) ∧
      (db.livraisons.find? P = none →
        l1 = mkNew db.nextId ∧
        (upsertLivraison db P mkNew body now statut).2.livraisons.length
          = db.livraisons.length + 1) := by
  cases hf : db.livraisons.find? P with
  | some l0 =>
    have hP0 : P l0 = true := List.find?_some hf
    have hP1 : P (refreshLivraison l0 body now statut) = true := hPupd l0 hP0
    have hrepl := filter_map_replace P Livraison.id
      (refreshLivraison l0 body now statut) l0 db.livraisons huniq hf hcount hP1
    refine ⟨refreshLivraison l0 body now statut, ?_, ?_, ?_, ?_, ?_⟩
    · simp [upsertLivraison, hf]
    · simpa [upsertLivraison, hf] using hrepl.1
    · simpa [upsertLivraison, hf] using hrepl.2
    · intro l0' hf'
      cases Option.some_inj.mp hf'
      exact ⟨rfl, rfl, by simp [upsertLivraison, hf]⟩
    · intro hf'
      simp at hf'
  | none =>
    have hflt : db.livraisons.filter P = [] := by
      rw [List.filter_eq_nil_iff]
      intro a ha
      exact List.find?_eq_none.mp hf a ha
    refine ⟨mkNew db.nextId, ?_, ?_, ?_, ?_, ?_⟩
    · simp [upsertLivraison, hf]
    · simp [upsertLivraison, hf, List.filter_append, hflt, hPnew]
    · simp [upsertLivraison, hf, List.filter_append, hPnew]
    · intro l0' hf'
      simp at hf'
    · intro _
      exact ⟨rfl, by simp [upsertLivraison, hf]⟩

/-- computeStatut is EN_RETARD exactly after the window end. -/
theorem computeStatut_enRetard (now fin : Int) :
    computeStatut now fin = .enRetard ↔ fin < now := by
  unfold computeStatut
  split <;> simp_all

/-- computeStatut is LIVRE exactly up to the window end. -/
theorem computeStatut_livre (now fin : Int) :
    computeStatut now fin = .livre ↔ now ≤ fin := by
  unfold computeStatut
  split <;> simp_all

/-- The upsert tail always succeeds and stamps the computed statut. -/
theorem upsertLivraison_ok (db : DB) (P : Livraison → Bool) (mkNew : Nat → Livraison)
    (body : SubmissionBody) (now : Int) (statut : StatutLivraison)
    (hSnew : (mkNew db.nextId).statut = statut) :
    ∃ l1, (upsertLivraison db P mkNew body now statut).1 = .ok l1 ∧ l1.statut = statut := by
  cases hf : db.livraisons.find? P with
  | some l0 =>
    exact ⟨refreshLivraison l0 body now statut, by simp [upsertLivraison, hf], rfl⟩
  | none =>
    exact ⟨mkNew db.nextId, by simp [upsertLivraison, hf], hSnew⟩

/-- Individual submission before the window start fails with NotStarted
and does not touch the store. -/
theorem submitIndividual_notStarted (db : DB) (p : Principal) (aid : Nat)
    (body : SubmissionBody) (now : Int)
    (aff : AffectationIndividuelle) (etu : Etudiant) (travail : Travail)
    (hrole : p.role = Role.etudiant)
    (hbody : ¬(body.contenu = none ∧ body.fichierUrl = none))
    (haff : db.findAffectation aid = some aff)
    (hetu : db.findEtudiant aff.etudiantId = some etu)
    (htrav : db.findTravail aff.travailId = some travail)
    (hown : etu.compteId = p.userId)
    (hlt : now < travail.dateDebut) :
    submitIndividual db p aid body now = (.error .notStarted, db) := by
  simp [submitIndividual, hrole, hbody, haff, hetu, htrav, hown, hlt]

/-- Individual submission from the window start on succeeds with the
computed statut. -/
theorem submitIndividual_statut (db : DB) (p : Principal) (aid : Nat)
    (body : SubmissionBody) (now : Int)
    (aff : AffectationIndividuelle) (etu : Etudiant) (travail : Travail)
    (hrole : p.role = Role.etudiant)
    (hbody : ¬(body.contenu = none ∧ body.fichierUrl = none))
    (haff : db.findAffectation aid = some aff)
    (hetu : db.findEtudiant aff.etudiantId = some etu)
    (htrav : db.findTravail aff.travailId = some travail)
    (hown : etu.compteId = p.userId)
    (hge : travail.dateDebut ≤ now) :
    ∃ l1, (submitIndividual db p aid body now).1 = .ok l1 ∧
      l1.statut = computeStatut now travail.dateFin := by
  have hnlt : ¬ now < travail.dateDebut := by omega
  have h := upsertLivraison_ok db (fun l => l.affectationId == some aid)
    (fun fresh =>
      { id := fresh, affectationId := some aid, groupeId := none,
        contenu := body.contenu, fichierUrl := body.fichierUrl,
        dateLivraison := now, statut := computeStatut now travail.dateFin })
    body now (computeStatut now travail.dateFin) rfl
  simpa [submitIndividual, hrole, hbody, haff, hetu, htrav, hown, hnlt] using h

/-- Group submission before the window start fails with NotStarted. -/
theorem submitGroup_notStarted (db : DB) (p : Principal) (gid : Nat)
    (body : SubmissionBody) (now : Int)
    (etu : Etudiant) (m : MembreGroupe) (groupe : GroupeEtudiant) (travail : Travail)
    (hrole : p.role = Role.etudiant)
    (hbody : ¬(body.contenu = none ∧ body.fichierUrl = none))
    (hetu : db.findEtudiantByCompte p.userId = some etu)
    (hm : db.findMembre gid etu.id = some m)
    (hg : db.findGroupe gid = some groupe)
    (htrav : db.findTravail groupe.travailId = some travail)
    (hlt : now < travail.dateDebut) :
    submitGroup db p gid body now = (.error .notStarted, db) := by
  simp [submitGroup, hrole, hbody, hetu, hm, hg, htrav, hlt]

/-- Group submission from the window start on succeeds with the computed
statut. -/
theorem submitGroup_statut (db : DB) (p : Principal) (gid : Nat)
    (body : SubmissionBody) (now : Int)
    (etu : Etudiant) (m : MembreGroupe) (groupe : GroupeEtudiant) (travail : Travail)
    (hrole : p.role = Role.etudiant)
    (hbody : ¬(body.contenu = none ∧ body.fichierUrl = none))
    (hetu : db.findEtudiantByCompte p.userId = some etu)
    (hm : db.findMembre gid etu.id = some m)
    (hg : db.findGroupe gid = some groupe)
    (htrav : db.findTravail groupe.travailId = some travail)
    (hge : travail.dateDebut ≤ now) :
    ∃ l1, (submitGroup db p gid body now).1 = .ok l1 ∧
      l1.statut = computeStatut now travail.dateFin := by
  have hnlt : ¬ now < travail.dateDebut := by omega
  have h := upsertLivraison_ok db (fun l => l.groupeId == some gid)
    (fun fresh =>
      { id := fresh, affectationId := none, groupeId := some gid,
        contenu := body.contenu, fichierUrl := body.fichierUrl,
        dateLivraison := now, statut := computeStatut now travail.dateFin })
    body now (computeStatut now travail.dateFin) rfl
  simpa [submitGroup, hrole, hbody, hetu, hm, hg, htrav, hnlt] using h

/-! ## Assignment Distributor lemmas -/

theorem assignFold_hasAffectation (wid : Nat) (ids : List Nat) :
    ∀ (db : DB) (c : Nat) (sid : Nat),
      ((ids.foldl (assignStep wid) (db, c)).1.hasAffectation wid sid = true)
        ↔ (db.hasAffectation wid sid = true ∨
           (sid ∈ ids ∧ db.findEtudiant sid ≠ none)) := by
  induction ids with
  | nil =>
    intro db c sid
    simp
  | cons s rest ih =>
    intro db c sid
    simp only [List.foldl_cons, assignStep]
    by_cases h : (db.hasAffectation wid s = true ∨ db.findEtudiant s = none)
    · rw [if_pos h]
      rw [ih]
      constructor
      · rintro (hh | ⟨hm, he⟩)
        · exact Or.inl hh
        · exact Or.inr ⟨by simp [hm], he⟩
      · rintro (hh | ⟨hm, he⟩)
        · exact Or.inl hh
        · rcases List.mem_cons.mp hm with heq | hm2
          · subst heq
            rcases h with h1 | h1
            · exact Or.inl h1
            · exact absurd h1 he
          · exact Or.inr ⟨hm2, he⟩
    · rw [if_neg h]
      have hna := not_or.mp h
      rw [ih]
      have hadd : ∀ t : Nat, ({ db with
          affectations := db.affectations ++
            [{ id := db.nextId, travailId := wid, etudiantId := s, estSupprime := false }]
          nextId := db.nextId + 1 } : DB).hasAffectation wid t = true
          ↔ (db.hasAffectation wid t = true ∨ t = s) := by
        intro t
        simp [DB.hasAffectation, List.any_append]
        constructor
        · rintro (h1 | h1)
          · exact Or.inl h1
          · exact Or.inr h1.symm
        · rintro (h1 | h1)
          · exact Or.inl h1
          · exact Or.inr h1.symm
      constructor
      · rintro (hh | ⟨hm, he⟩)
        · rcases (hadd sid).mp hh with h1 | h1
          · exact Or.inl h1
          · subst h1
            exact Or.inr ⟨by simp, hna.2⟩
        · exact Or.inr ⟨by simp [hm], he⟩
      · rintro (hh | ⟨hm, he⟩)
        · exact Or.inl ((hadd sid).mpr (Or.inl hh))
        · rcases List.mem_cons.mp hm with heq | hm2
          · subst heq
            exact Or.inl ((hadd sid).mpr (Or.inr rfl))
          · exact Or.inr ⟨hm2, he⟩

theorem assignFold_skip (wid : Nat) (ids : List Nat) :
    ∀ (db : DB) (c : Nat),
      (∀ s ∈ ids, db.hasAffectation wid s = true ∨ db.findEtudiant s = none) →
      ids.foldl (assignStep wid) (db, c) = (db, c) := by
  induction ids with
  | nil => intro db c _; rfl
  | cons s rest ih =>
    intro db c hall
    simp only [List.foldl_cons, assignStep]
    rw [if_pos (hall s (by simp))]
    exact ih db c (fun t ht => hall t (by simp [ht]))

theorem assignFold_frame (wid : Nat) (ids : List Nat) :
    ∀ (db : DB) (c : Nat),
      ((ids.foldl (assignStep wid) (db, c)).1.etudiants = db.etudiants ∧
       (ids.foldl (assignStep wid) (db, c)).1.formateurs = db.formateurs ∧
       (ids.foldl (assignStep wid) (db, c)).1.directeurs = db.directeurs ∧
       (ids.foldl (assignStep wid) (db, c)).1.travaux = db.travaux ∧
       (ids.foldl (assignStep wid) (db, c)).1.groupes = db.groupes ∧
       (ids.foldl (assignStep wid) (db, c)).1.membres = db.membres ∧
       (ids.foldl (assignStep wid) (db, c)).1.livraisons = db.livraisons ∧
       (ids.foldl (assignStep wid) (db, c)).1.evaluations = db.evaluations) := by
  induction ids with
  | nil => intro db c; exact ⟨rfl, rfl, rfl, rfl, rfl, rfl, rfl, rfl⟩
  | cons s rest ih =>
    intro db c
    simp only [List.foldl_cons, assignStep]
    by_cases h : (db.hasAffectation wid s = true ∨ db.findEtudiant s = none)
    · rw [if_pos h]
      exact ih db c
    · rw [if_neg h]
      exact ih _ _

theorem assignFold_count (wid : Nat) (ids : List Nat) :
    ∀ (db : DB) (c : Nat), (∀ s ∈ ids, db.hasAffectation wid s = false) →
      (∀ s ∈ ids, db.findEtudiant s ≠ none) → ids.Nodup →
      ((ids.foldl (assignStep wid) (db, c)).1.affectations.filter
          (fun a => a.travailId == wid)).length
        = (db.affectations.filter (fun a => a.travailId == wid)).length + ids.length ∧
      (ids.foldl (assignStep wid) (db, c)).2 = c + ids.length := by
  induction ids with
  | nil => intro db c _ _ _; simp
  | cons s rest ih =>
    intro db c hfresh hetu hnodup
    have hs : db.hasAffectation wid s = false := hfresh s (by simp)
    have hse : db.findEtudiant s ≠ none := hetu s (by simp)
    simp only [List.foldl_cons, assignStep]
    rw [if_neg (by
      rintro (h1 | h1)
      · simp [hs] at h1
      · exact hse h1)]
    have hfresh2 : ∀ t ∈ rest,
        ({ db with
           affectations := db.affectations ++
             [{ id := db.nextId, travailId := wid, etudiantId := s, estSupprime := false }]
           nextId := db.nextId + 1 } : DB).hasAffectation wid t = false := by
      intro t ht
      have htf : db.hasAffectation wid t = false := hfresh t (by simp [ht])
      have hts : t ≠ s := by
        intro he
        subst he
        exact (List.nodup_cons.mp hnodup).1 ht
      simp [DB.hasAffectation, List.any_append] at htf ⊢
      exact ⟨htf, fun he => absurd he.symm hts⟩
    have hetu2 : ∀ t ∈ rest,
        ({ db with
           affectations := db.affectations ++
             [{ id := db.nextId, travailId := wid, etudiantId := s, estSupprime := false }]
           nextId := db.nextId + 1 } : DB).findEtudiant t ≠ none :=
      fun t ht => hetu t (by simp [ht])
    have ihr := ih _ (c + 1) hfresh2 hetu2 (List.nodup_cons.mp hnodup).2
    constructor
    · rw [ihr.1]
      simp only [List.length_cons, List.filter_append, List.length_append]
      simp
      omega
    · rw [ihr.2]
      simp only [List.length_cons]
      omega

/-! ## Group Formation Manager lemmas -/

theorem createMemberships_some (gid : Nat) (ids : List Nat) :
    ∀ (db db2 : DB), createMemberships db gid ids = some db2 →
      db2.membres = db.membres ++ ids.map (fun s => { groupeId := gid, etudiantId := s }) ∧
      db2.etudiants = db.etudiants ∧ db2.formateurs = db.formateurs ∧
      db2.directeurs = db.directeurs ∧ db2.travaux = db.travaux ∧
      db2.affectations = db.affectations ∧ db2.groupes = db.groupes ∧
      db2.livraisons = db.livraisons ∧ db2.evaluations = db.evaluations ∧
      db2.nextId = db.nextId := by
  induction ids with
  | nil =>
    intro db db2 h
    simp only [createMemberships] at h
    cases h
    simp
  | cons s rest ih =>
    intro db db2 h
    simp only [createMemberships, createMembership] at h
    by_cases hc : (db.hasMembre gid s = true ∨ db.findEtudiant s = none)
    · rw [if_pos hc] at h
      cases h
    · rw [if_neg hc] at h
      have := ih _ _ h
      refine ⟨?_, this.2.1, this.2.2.1, this.2.2.2.1, this.2.2.2.2.1,
        this.2.2.2.2.2.1, this.2.2.2.2.2.2.1, this.2.2.2.2.2.2.2.1,
        this.2.2.2.2.2.2.2.2.1, this.2.2.2.2.2.2.2.2.2⟩
      rw [this.1]
      simp

theorem createMemberships_success (gid : Nat) (ids : List Nat) :
    ∀ (db : DB), ids.Nodup →
      (∀ s ∈ ids, db.findEtudiant s ≠ none) →
      (∀ s ∈ ids, db.hasMembre gid s = false) →
      ∃ db2, createMemberships db gid ids = some db2 := by
  induction ids with
  | nil =>
    intro db _ _ _
    exact ⟨db, rfl⟩
  | cons s rest ih =>
    intro db hnodup hetu hfresh
    have hc : ¬(db.hasMembre gid s = true ∨ db.findEtudiant s = none) := by
      have h1 := hfresh s (by simp)
      have h2 := hetu s (by simp)
      simp [h1, h2]
    have hstep : createMembership db gid s
        = some { db with membres := db.membres ++ [{ groupeId := gid, etudiantId := s }] } := by
      simp only [createMembership]
      rw [if_neg hc]
    obtain ⟨db2, hdb2⟩ := ih { db with membres := db.membres ++ [{ groupeId := gid, etudiantId := s }] }
      (List.nodup_cons.mp hnodup).2
      (fun t ht => hetu t (by simp [ht]))
      (by
        intro t ht
        have htf := hfresh t (by simp [ht])
        have hts : t ≠ s := by
          intro he
          subst he
          exact (List.nodup_cons.mp hnodup).1 ht
        simp [DB.hasMembre, List.any_append] at htf ⊢
        exact ⟨htf, fun he => absurd he.symm hts⟩)
    refine ⟨db2, ?_⟩
    simp only [createMemberships, hstep]
    exact hdb2

/-! ## Grading Ledger lemmas -/

/-- One grade call keeps the per-livraison evaluation count at most 1. -/
theorem grade_evalCount_le_one (db : DB) (p : Principal) (b : GradeBody) (t : Int) (lid : Nat)
    (h : (db.evaluationsFor lid).length ≤ 1) :
    (((grade db p b t).2).evaluationsFor lid).length ≤ 1 := by
  unfold grade
  split
  · exact h
  · split
    · exact h
    · exact h
    · split
      · exact h
      · split
        · exact h
        · split
          · exact h
          · dsimp only
            split
            · exact h
            · rename_i hrole o1 o2 lidv notev heq1 heq2 hrange o3 lval heq3 hcount hprof
              simp only [DB.evaluationsFor, List.filter_append, List.length_append] at h hcount ⊢
              by_cases hl : lidv = lid
              · subst hl
                simp only [List.filter, beq_self_eq_true, List.length_cons, List.length_nil]
                omega
              · have hne : (lidv == lid) = false := by simp [hl]
                simp only [List.filter, hne, List.length_nil]
                omega

/-- Any sequence of grade calls keeps the count at most 1. -/
theorem gradeCalls_evalCount_le_one (calls : List (Principal × GradeBody × Int))
    (db : DB) (lid : Nat) (h : (db.evaluationsFor lid).length ≤ 1) :
    (((gradeCalls db calls)).evaluationsFor lid).length ≤ 1 := by
  induction calls generalizing db with
  | nil => exact h
  | cons c rest ih =>
    exact ih _ (grade_evalCount_le_one db c.1 c.2.1 c.2.2 lid h)

/-- A well-formed grade call against an already-evaluated livraison is
rejected with AlreadyGraded and leaves the store untouched. -/
theorem grade_already_graded (db : DB) (p : Principal) (b : GradeBody) (t : Int)
    (lid : Nat) (n : Int) (l : Livraison)
    (hrole : p.role = Role.formateur ∨ p.role = Role.directeur)
    (h1 : b.livraisonId = some lid) (h2 : b.note = some n)
    (h3 : 0 ≤ n) (h4 : n ≤ 20)
    (h5 : db.findLivraison lid = some l)
    (h6 : 0 < (db.evaluationsFor lid).length) :
    grade db p b t = (.error .alreadyGraded, db) := by
  have hrole2 : ¬(p.role ≠ Role.formateur ∧ p.role ≠ Role.directeur) := by
    rcases hrole with h | h <;> simp [h]
  have hr : ¬(n < 0 ∨ 20 < n) := by omega
  simp [grade, hrole2, h1, h2, hr, h5, h6]

/-- A well-formed first grade call on an ungraded livraison succeeds,
appending exactly one evaluation for it. -/
theorem grade_success (db : DB) (p : Principal) (b : GradeBody) (t : Int)
    (lid : Nat) (n : Int) (l : Livraison)
    (hrole : p.role = Role.formateur ∨ p.role = Role.directeur)
    (h1 : b.livraisonId = some lid) (h2 : b.note = some n)
    (h3 : 0 ≤ n) (h4 : n ≤ 20)
    (h5 : db.findLivraison lid = some l)
    (h6 : (db.evaluationsFor lid).length = 0)
    (h7 : db.findFormateurByCompte p.userId ≠ none ∨ p.role = Role.directeur) :
    ∃ ev : Evaluation,
      grade db p b t =
        (.ok ev, { db with evaluations := db.evaluations ++ [ev], nextId := db.nextId + 1 }) ∧
      ev.livraisonId = lid ∧
      (((grade db p b t).2).evaluationsFor lid).length = 1 := by
  have hrole2 : ¬(p.role ≠ Role.formateur ∧ p.role ≠ Role.directeur) := by
    rcases hrole with h | h <;> simp [h]
  have hr : ¬(n < 0 ∨ 20 < n) := by omega
  have hp : ¬(db.findFormateurByCompte p.userId = none ∧ p.role ≠ Role.directeur) := by
    rcases h7 with h | h <;> simp [h]
  have hflt : db.evaluations.filter (fun e => e.livraisonId == lid) = [] := by
    have h6a := h6
    simp only [DB.evaluationsFor] at h6a
    exact List.length_eq_zero.mp h6a
  have hcount : ¬ 0 < (db.evaluations.filter (fun e => e.livraisonId == lid)).length := by
    simp [hflt]
  refine ⟨{ id := db.nextId, livraisonId := lid, note := n, commentaire := b.commentaire,
            evaluateurId := (db.findFormateurByCompte p.userId).map Formateur.id,
            dateEvaluation := t, dateModification := none, modificateurId := none,
            raisonModification := none }, ?_, rfl, ?_⟩
  · simp [grade, DB.evaluationsFor, hrole2, h1, h2, hr, h5, hcount, hp]
  · simp [grade, DB.evaluationsFor, hrole2, h1, h2, hr, h5, hcount, hp,
          List.filter_append, hflt]

/-! ## Claim theorems -/

/-- C1: grading is single-shot.  A grade call on a livraison that
already has an evaluation fails with AlreadyGraded and leaves the store
unchanged; any sequence of grade calls keeps at most one evaluation per
livraison; and a first well-formed grade call with a score in [0, 20]
on an ungraded livraison succeeds and creates exactly one evaluation. -/
theorem c1_grade_single_shot :
    (∀ (db : DB) (p : Principal) (b : GradeBody) (t : Int) (lid : Nat) (n : Int) (l : Livraison),
      (p.role = Role.formateur ∨ p.role = Role.directeur) →
      b.livraisonId = some lid → b.note = some n → 0 ≤ n → n ≤ 20 →
      db.findLivraison lid = some l → 0 < (db.evaluationsFor lid).length →
      grade db p b t = (.error .alreadyGraded, db)) ∧
    (∀ (db : DB) (calls : List (Principal × GradeBody × Int)) (lid : Nat),
      (db.evaluationsFor lid).length ≤ 1 →
      ((gradeCalls db calls).evaluationsFor lid).length ≤ 1) ∧
    (∀ (db : DB) (p : Principal) (b : GradeBody) (t : Int) (lid : Nat) (n : Int) (l : Livraison),
      (p.role = Role.formateur ∨ p.role = Role.directeur) →
      b.livraisonId = some lid → b.note = some n → 0 ≤ n → n ≤ 20 →
      db.findLivraison lid = some l → (db.evaluationsFor lid).length = 0 →
      (db.findFormateurByCompte p.userId ≠ none ∨ p.role = Role.directeur) →
      ∃ ev : Evaluation,
        grade db p b t =
          (.ok ev, { db with evaluations := db.evaluations ++ [ev], nextId := db.nextId + 1 }) ∧
        ev.livraisonId = lid ∧
        (((grade db p b t).2).evaluationsFor lid).length = 1) := by
  refine ⟨?_, ?_, ?_⟩
  · intro db p b t lid n l hrole h1 h2 h3 h4 h5 h6
    exact grade_already_graded db p b t lid n l hrole h1 h2 h3 h4 h5 h6
  · intro db calls lid h
    exact gradeCalls_evalCount_le_one calls db lid h
  · intro db p b t lid n l hrole h1 h2 h3 h4 h5 h6 h7
    exact grade_success db p b t lid n l hrole h1 h2 h3 h4 h5 h6 h7

/-- C2: submission window and lateness.  A submit call by the rightful
owner (individual or group) before window start fails with NotStarted
and creates nothing; from the start on it succeeds, with statut
EN_RETARD exactly when now is past the window end, LIVRE exactly when
now lies inside the window. -/
theorem c2_submission_window :
    (∀ (db : DB) (p : Principal) (aid : Nat) (body : SubmissionBody) (now : Int)
       (aff : AffectationIndividuelle) (etu : Etudiant) (travail : Travail),
      p.role = Role.etudiant →
      ¬(body.contenu = none ∧ body.fichierUrl = none) →
      db.findAffectation aid = some aff →
      db.findEtudiant aff.etudiantId = some etu →
      db.findTravail aff.travailId = some travail →
      etu.compteId = p.userId →
      ((now < travail.dateDebut →
          submitIndividual db p aid body now = (.error .notStarted, db)) ∧
       (travail.dateDebut ≤ now →
          ∃ l1, (submitIndividual db p aid body now).1 = .ok l1 ∧
            (l1.statut = .enRetard ↔ travail.dateFin < now) ∧
            (l1.statut = .livre ↔ (travail.dateDebut ≤ now ∧ now ≤ travail.dateFin))))) ∧
    (∀ (db : DB) (p : Principal) (gid : Nat) (body : SubmissionBody) (now : Int)
       (etu : Etudiant) (m : MembreGroupe) (groupe : GroupeEtudiant) (travail : Travail),
      p.role = Role.etudiant →
      ¬(body.contenu = none ∧ body.fichierUrl = none) →
      db.findEtudiantByCompte p.userId = some etu →
      db.findMembre gid etu.id = some m →
      db.findGroupe gid = some groupe →
      db.findTravail groupe.travailId = some travail →
      ((now < travail.dateDebut →
          submitGroup db p gid body now = (.error .notStarted, db)) ∧
       (travail.dateDebut ≤ now →
          ∃ l1, (submitGroup db p gid body now).1 = .ok l1 ∧
            (l1.statut = .enRetard ↔ travail.dateFin < now) ∧
            (l1.statut = .livre ↔ (travail.dateDebut ≤ now ∧ now ≤ travail.dateFin))))) := by
  constructor
  · intro db p aid body now aff etu travail hrole hbody haff hetu htrav hown
    constructor
    · intro hlt
      exact submitIndividual_notStarted db p aid body now aff etu travail
        hrole hbody haff hetu htrav hown hlt
    · intro hge
      obtain ⟨l1, hok, hstat⟩ := submitIndividual_statut db p aid body now aff etu travail
        hrole hbody haff hetu htrav hown hge
      refine ⟨l1, hok, ?_, ?_⟩
      · rw [hstat, computeStatut_enRetard]
      · rw [hstat, computeStatut_livre]
        exact ⟨fun h => ⟨hge, h⟩, fun h => h.2⟩
  · intro db p gid body now etu m groupe travail hrole hbody hetu hm hg htrav
    constructor
    · intro hlt
      exact submitGroup_notStarted db p gid body now etu m groupe travail
        hrole hbody hetu hm hg htrav hlt
    · intro hge
      obtain ⟨l1, hok, hstat⟩ := submitGroup_statut db p gid body now etu m groupe travail
        hrole hbody hetu hm hg htrav hge
      refine ⟨l1, hok, ?_, ?_⟩
      · rw [hstat, computeStatut_enRetard]
      · rw [hstat, computeStatut_livre]
        exact ⟨fun h => ⟨hge, h⟩, fun h => h.2⟩

/-- C2 witness: on the sample store, an early submission fails with
NotStarted and a post-deadline submission succeeds as EN_RETARD. -/
theorem c2_submission_window_witness :
    submitIndividual dbUngraded ⟨10, Role.etudiant⟩ 1 ⟨some "x", none⟩ 50
      = (.error .notStarted, dbUngraded) ∧
    (∃ l1, (submitIndividual dbUngraded ⟨10, Role.etudiant⟩ 1 ⟨some "x", none⟩ 250).1 = .ok l1 ∧
      (l1.statut = .enRetard ↔ (250 : Int) > 200) ∧
      (l1.statut = .livre ↔ ((100 : Int) ≤ 250 ∧ (250 : Int) ≤ 200))) := by
  have h := c2_submission_window.1 dbUngraded ⟨10, Role.etudiant⟩ 1 ⟨some "x", none⟩
  constructor
  · exact (h 50 ⟨1, 1, 1, false⟩ ⟨1, 10⟩ travailInd rfl (by decide) (by decide)
      (by decide) (by decide) (by decide)).1 (by decide)
  · exact (h 250 ⟨1, 1, 1, false⟩ ⟨1, 10⟩ travailInd rfl (by decide) (by decide)
      (by decide) (by decide) (by decide)).2 (by decide)

/-- C3: at most one Submission per owner; a successful submit against
an owner that already has a Submission updates it in place (same id,
same total row count, content / artifact URL / submittedAt / statut
refreshed), never duplicates it, and leaves every other owner's
livraisons untouched; without a pre-existing Submission exactly one new
row is created. -/
theorem c3_submission_upsert :
    (∀ (db : DB) (p : Principal) (aid : Nat) (body : SubmissionBody) (now : Int)
       (aff : AffectationIndividuelle) (etu : Etudiant) (travail : Travail)
       (c u : String),
      p.role = Role.etudiant →
      body.contenu = some c → body.fichierUrl = some u →
      db.findAffectation aid = some aff →
      db.findEtudiant aff.etudiantId = some etu →
      db.findTravail aff.travailId = some travail →
      etu.compteId = p.userId →
      travail.dateDebut ≤ now →
      db.livraisons.Pairwise (fun a b => a.id ≠ b.id) →
      (db.livraisons.filter (fun l => l.affectationId == some aid)).length ≤ 1 →
      ∃ l1, (submitIndividual db p aid body now).1 = .ok l1 ∧
        (submitIndividual db p aid body now).2.livraisons.filter
          (fun l => l.affectationId == some aid) = [l1] ∧
        (submitIndividual db p aid body now).2.livraisons.filter
          (fun l => !(l.affectationId == some aid))
          = db.livraisons.filter (fun l => !(l.affectationId == some aid)) ∧
        l1.contenu = some c ∧ l1.fichierUrl = some u ∧ l1.dateLivraison = now ∧
        l1.statut = computeStatut now travail.dateFin ∧
        (∀ l0, db.livraisons.find? (fun l => l.affectationId == some aid) = some l0 →
          l1.id = l0.id ∧
          (submitIndividual db p aid body now).2.livraisons.length
            = db.livraisons.length) ∧
        (db.livraisons.find? (fun l => l.affectationId == some aid) = none →
          (submitIndividual db p aid body now).2.livraisons.length
            = db.livraisons.length + 1)) ∧
    (∀ (db : DB) (p : Principal) (gid : Nat) (body : SubmissionBody) (now : Int)
       (etu : Etudiant) (m : MembreGroupe) (groupe : GroupeEtudiant) (travail : Travail)
       (c u : String),
      p.role = Role.etudiant →
      body.contenu = some c → body.fichierUrl = some u →
      db.findEtudiantByCompte p.userId = some etu →
      db.findMembre gid etu.id = some m →
      db.findGroupe gid = some groupe →
      db.findTravail groupe.travailId = some travail →
      travail.dateDebut ≤ now →
      db.livraisons.Pairwise (fun a b => a.id ≠ b.id) →
      (db.livraisons.filter (fun l => l.groupeId == some gid)).length ≤ 1 →
      ∃ l1, (submitGroup db p gid body now).1 = .ok l1 ∧
        (submitGroup db p gid body now).2.livraisons.filter
          (fun l => l.groupeId == some gid) = [l1] ∧
        (submitGroup db p gid body now).2.livraisons.filter
          (fun l => !(l.groupeId == some gid))
          = db.livraisons.filter (fun l => !(l.groupeId == some gid)) ∧
        l1.contenu = some c ∧ l1.fichierUrl = some u ∧ l1.dateLivraison = now ∧
        l1.statut = computeStatut now travail.dateFin ∧
        (∀ l0, db.livraisons.find? (fun l => l.groupeId == some gid) = some l0 →
          l1.id = l0.id ∧
          (submitGroup db p gid body now).2.livraisons.length
            = db.livraisons.length) ∧
        (db.livraisons.find? (fun l => l.groupeId == some gid) = none →
          (submitGroup db p gid body now).2.livraisons.length
            = db.livraisons.length + 1)) := by
  constructor
  · intro db p aid body now aff etu travail c u hrole hc hu haff hetu htrav hown hge huniq hcount
    have hbody : ¬(body.contenu = none ∧ body.fichierUrl = none) := by simp [hc]
    have hnlt : ¬ now < travail.dateDebut := by omega
    have hred : submitIndividual db p aid body now
        = upsertLivraison db (fun l => l.affectationId == some aid)
            (fun fresh =>
              { id := fresh, affectationId := some aid, groupeId := none,
                contenu := body.contenu, fichierUrl := body.fichierUrl,
                dateLivraison := now, statut := computeStatut now travail.dateFin })
            body now (computeStatut now travail.dateFin) := by
      simp [submitIndividual, hrole, hbody, haff, hetu, htrav, hown, hnlt]
    obtain ⟨l1, hok, hfP, hfnP, hupd, hnewc⟩ :=
      upsertLivraison_spec db (fun l => l.affectationId == some aid)
        (fun fresh =>
          { id := fresh, affectationId := some aid, groupeId := none,
            contenu := body.contenu, fichierUrl := body.fichierUrl,
            dateLivraison := now, statut := computeStatut now travail.dateFin })
        body now (computeStatut now travail.dateFin) huniq hcount (by simp)
        (fun l0 h0 => by simpa [refreshLivraison] using h0)
    have hfields : l1.contenu = some c ∧ l1.fichierUrl = some u ∧
        l1.dateLivraison = now ∧ l1.statut = computeStatut now travail.dateFin := by
      cases hf : db.livraisons.find? (fun l => l.affectationId == some aid) with
      | some l0 =>
        obtain ⟨heq, _, _⟩ := hupd l0 hf
        subst heq
        simp [refreshLivraison, hc, hu]
      | none =>
        obtain ⟨heq, _⟩ := hnewc hf
        subst heq
        simp [hc, hu]
    rw [hred]
    exact ⟨l1, hok, hfP, hfnP, hfields.1, hfields.2.1, hfields.2.2.1, hfields.2.2.2,
      fun l0 h0 => ⟨(hupd l0 h0).2.1, (hupd l0 h0).2.2⟩, fun h0 => (hnewc h0).2⟩
  · intro db p gid body now etu m groupe travail c u hrole hc hu hetu hm hg htrav hge huniq hcount
    have hbody : ¬(body.contenu = none ∧ body.fichierUrl = none) := by simp [hc]
    have hnlt : ¬ now < travail.dateDebut := by omega
    have hred : submitGroup db p gid body now
        = upsertLivraison db (fun l => l.groupeId == some gid)
            (fun fresh =>
              { id := fresh, affectationId := none, groupeId := some gid,
                contenu := body.contenu, fichierUrl := body.fichierUrl,
                dateLivraison := now, statut := computeStatut now travail.dateFin })
            body now (computeStatut now travail.dateFin) := by
      simp [submitGroup, hrole, hbody, hetu, hm, hg, htrav, hnlt]
    obtain ⟨l1, hok, hfP, hfnP, hupd, hnewc⟩ :=
      upsertLivraison_spec db (fun l => l.groupeId == some gid)
        (fun fresh =>
          { id := fresh, affectationId := none, groupeId := some gid,
            contenu := body.contenu, fichierUrl := body.fichierUrl,
            dateLivraison := now, statut := computeStatut now travail.dateFin })
        body now (computeStatut now travail.dateFin) huniq hcount (by simp)
        (fun l0 h0 => by simpa [refreshLivraison] using h0)
    have hfields : l1.contenu = some c ∧ l1.fichierUrl = some u ∧
        l1.dateLivraison = now ∧ l1.statut = computeStatut now travail.dateFin := by
      cases hf : db.livraisons.find? (fun l => l.groupeId == some gid) with
      | some l0 =>
        obtain ⟨heq, _, _⟩ := hupd l0 hf
        subst heq
        simp [refreshLivraison, hc, hu]
      | none =>
        obtain ⟨heq, _⟩ := hnewc hf
        subst heq
        simp [hc, hu]
    rw [hred]
    exact ⟨l1, hok, hfP, hfnP, hfields.1, hfields.2.1, hfields.2.2.1, hfields.2.2.2,
      fun l0 h0 => ⟨(hupd l0 h0).2.1, (hupd l0 h0).2.2⟩, fun h0 => (hnewc h0).2⟩

/-- C3 witness: resubmitting over the existing livraison 5 keeps a
single livraison for affectation 1, with id 5, refreshed fields, and
an unchanged row count. -/
theorem c3_submission_upsert_witness :
    ∃ l1, (submitIndividual dbUngraded ⟨10, Role.etudiant⟩ 1 ⟨some "y", some "u"⟩ 180).1 = .ok l1 ∧
      (submitIndividual dbUngraded ⟨10, Role.etudiant⟩ 1 ⟨some "y", some "u"⟩ 180).2.livraisons.filter
        (fun l => l.affectationId == some 1) = [l1] ∧
      (submitIndividual dbUngraded ⟨10, Role.etudiant⟩ 1 ⟨some "y", some "u"⟩ 180).2.livraisons.filter
        (fun l => !(l.affectationId == some 1))
        = dbUngraded.livraisons.filter (fun l => !(l.affectationId == some 1)) ∧
      l1.contenu = some "y" ∧ l1.fichierUrl = some "u" ∧ l1.dateLivraison = 180 ∧
      l1.statut = computeStatut 180 travailInd.dateFin ∧
      (∀ l0, dbUngraded.livraisons.find? (fun l => l.affectationId == some 1) = some l0 →
        l1.id = l0.id ∧
        (submitIndividual dbUngraded ⟨10, Role.etudiant⟩ 1 ⟨some "y", some "u"⟩ 180).2.livraisons.length
          = dbUngraded.livraisons.length) ∧
      (dbUngraded.livraisons.find? (fun l => l.affectationId == some 1) = none →
        (submitIndividual dbUngraded ⟨10, Role.etudiant⟩ 1 ⟨some "y", some "u"⟩ 180).2.livraisons.length
          = dbUngraded.livraisons.length + 1) :=
  c3_submission_upsert.1 dbUngraded ⟨10, Role.etudiant⟩ 1 ⟨some "y", some "u"⟩ 180
    ⟨1, 1, 1, false⟩ ⟨1, 10⟩ travailInd "y" "u" rfl rfl rfl (by decide) (by decide)
    (by decide) (by decide) (by decide) (by simp [dbUngraded]) (by decide)

/-- C7: bulk individual assignment is duplicate-tolerant and
idempotent.  Ids whose create fails in the store — already assigned for
this work, or no such student — are silently skipped, not a batch
failure; an assignment exists afterwards exactly for previously
assigned students plus the requested ids that exist in the store;
repeating the same call is the identity on the store and returns count
0; and for a duplicate-free list of fresh existing students the call
returns exactly the list's length and grows the work's assignments by
that much (so two calls on [S1, S2] leave 2 assignments, not 4). -/
theorem c7_assign_idempotent :
    ∀ (db : DB) (p : Principal) (wid : Nat) (ids : List Nat) (travail : Travail),
      (p.role = Role.formateur ∨ p.role = Role.directeur) →
      db.findTravail wid = some travail →
      travail.typeTravail = TypeTravail.individuel →
      ((∀ s ∈ ids, db.hasAffectation wid s = true) →
          assignIndividual db p wid ids = (.ok 0, db)) ∧
      (∀ sid, ((assignIndividual db p wid ids).2.hasAffectation wid sid = true)
          ↔ (db.hasAffectation wid sid = true ∨
             (sid ∈ ids ∧ db.findEtudiant sid ≠ none))) ∧
      assignIndividual (assignIndividual db p wid ids).2 p wid ids
        = (.ok 0, (assignIndividual db p wid ids).2) ∧
      ((∀ s ∈ ids, db.hasAffectation wid s = false) →
        (∀ s ∈ ids, db.findEtudiant s ≠ none) → ids.Nodup →
        (assignIndividual db p wid ids).1 = .ok ids.length ∧
        ((assignIndividual db p wid ids).2.affectations.filter
            (fun a => a.travailId == wid)).length
          = (db.affectations.filter (fun a => a.travailId == wid)).length + ids.length) := by
  intro db p wid ids travail hrole hfind htype
  have hrole2 : ¬(p.role ≠ Role.formateur ∧ p.role ≠ Role.directeur) := by
    rcases hrole with h | h <;> simp [h]
  have htype2 : ¬(travail.typeTravail ≠ TypeTravail.individuel) := by simp [htype]
  have hred : assignIndividual db p wid ids
      = (.ok (ids.foldl (assignStep wid) (db, 0)).2,
         (ids.foldl (assignStep wid) (db, 0)).1) := by
    simp [assignIndividual, hrole2, hfind, htype2]
  refine ⟨?_, ?_, ?_, ?_⟩
  · intro hall
    rw [hred, assignFold_skip wid ids db 0 (fun s hs => Or.inl (hall s hs))]
  · intro sid
    rw [hred]
    exact assignFold_hasAffectation wid ids db 0 sid
  · have hframe := assignFold_frame wid ids db 0
    have hfindB : (assignIndividual db p wid ids).2.findTravail wid = some travail := by
      rw [hred]
      show ((ids.foldl (assignStep wid) (db, 0)).1.travaux).find? (fun t => t.id == wid)
        = some travail
      rw [hframe.2.2.2.1]
      exact hfind
    have hall2 : ∀ s ∈ ids,
        (assignIndividual db p wid ids).2.hasAffectation wid s = true ∨
        (assignIndividual db p wid ids).2.findEtudiant s = none := by
      intro s hs
      by_cases he : db.findEtudiant s = none
      · right
        rw [hred]
        show ((ids.foldl (assignStep wid) (db, 0)).1.etudiants).find? (fun e => e.id == s)
          = none
        rw [hframe.1]
        exact he
      · left
        rw [hred]
        exact (assignFold_hasAffectation wid ids db 0 s).mpr (Or.inr ⟨hs, he⟩)
    have hsecond : ∀ db1 : DB, db1.findTravail wid = some travail →
        (∀ s ∈ ids, db1.hasAffectation wid s = true ∨ db1.findEtudiant s = none) →
        assignIndividual db1 p wid ids = (.ok 0, db1) := by
      intro db1 hfind1 hall1
      have hred1 : assignIndividual db1 p wid ids
          = (.ok (ids.foldl (assignStep wid) (db1, 0)).2,
             (ids.foldl (assignStep wid) (db1, 0)).1) := by
        simp [assignIndividual, hrole2, hfind1, htype2]
      rw [hred1, assignFold_skip wid ids db1 0 hall1]
    exact hsecond _ hfindB hall2
  · intro hfresh hetu hnodup
    have hc := assignFold_count wid ids db 0 hfresh hetu hnodup
    constructor
    · rw [hred]
      simp [hc.2]
    · rw [hred]
      exact hc.1

/-- C7 witness: on the sample store (student 1 already assigned to work
1), repeating assign [1, 2] is the identity returning count 0, and the
fresh single-id call [2] creates and counts exactly one assignment. -/
theorem c7_assign_idempotent_witness :
    assignIndividual (assignIndividual dbUngraded ⟨30, Role.formateur⟩ 1 [1, 2]).2
        ⟨30, Role.formateur⟩ 1 [1, 2]
      = (.ok 0, (assignIndividual dbUngraded ⟨30, Role.formateur⟩ 1 [1, 2]).2) ∧
    (assignIndividual dbUngraded ⟨30, Role.formateur⟩ 1 [2]).1 = .ok 1 ∧
    ((assignIndividual dbUngraded ⟨30, Role.formateur⟩ 1 [2]).2.affectations.filter
        (fun a => a.travailId == 1)).length
      = (dbUngraded.affectations.filter (fun a => a.travailId == 1)).length + 1 := by
  have h1 := c7_assign_idempotent dbUngraded ⟨30, Role.formateur⟩ 1 [1, 2] travailInd
    (Or.inl rfl) (by decide) rfl
  have h2 := c7_assign_idempotent dbUngraded ⟨30, Role.formateur⟩ 1 [2] travailInd
    (Or.inl rfl) (by decide) rfl
  have h3 := h2.2.2.2 (by decide) (by decide) (by decide)
  exact ⟨h1.2.2.1, h3.1, h3.2⟩

/-- C5: group creation authorization.  For a Collective work with a
valid member list: an Instructor always succeeds and the group records
modeFormation FORMATEUR; a Student succeeds exactly when the work's
modeGroupe is ETUDIANT (recording modeFormation ETUDIANT) and otherwise
fails with Forbidden, leaving the store unchanged. -/
theorem c5_group_creation_auth :
    ∀ (db : DB) (p : Principal) (workId : Nat) (body : GroupBody) (travail : Travail)
      (nomG : String) (ids : List Nat),
      body.nomGroupe = some nomG → body.membresIds = some ids →
      db.findTravail workId = some travail →
      travail.typeTravail = TypeTravail.collectif →
      ids.Nodup →
      (∀ s ∈ ids, db.findEtudiant s ≠ none) →
      (∀ s ∈ ids, db.hasMembre db.nextId s = false) →
      ((p.role = Role.formateur →
         ∃ g, (createGroup db p workId body).1 = .ok g ∧
           g.modeFormation = some ModeGroupe.formateurMode) ∧
       (p.role = Role.etudiant → travail.modeGroupe = ModeGroupe.etudiantMode →
         ∃ g, (createGroup db p workId body).1 = .ok g ∧
           g.modeFormation = some ModeGroupe.etudiantMode) ∧
       (p.role = Role.etudiant → travail.modeGroupe ≠ ModeGroupe.etudiantMode →
         createGroup db p workId body = (.error .forbidden, db))) := by
  intro db p workId body travail nomG ids hn hm hft htype hnodup hetu hfresh
  obtain ⟨bn, bm⟩ := body
  simp only at hn hm
  subst hn
  subst hm
  have htype2 : ¬(travail.typeTravail ≠ TypeTravail.collectif) := by simp [htype]
  refine ⟨?_, ?_, ?_⟩
  · intro hrole
    obtain ⟨db2, htx⟩ := createMemberships_success db.nextId ids
      { db with
        groupes := db.groupes ++
          [{ id := db.nextId, travailId := workId, nomGroupe := nomG,
             modeFormation := some ModeGroupe.formateurMode,
             createurId := (db.findFormateurByCompte p.userId).map Formateur.id }]
        nextId := db.nextId + 1 }
      hnodup (fun s hs => hetu s hs) (fun s hs => hfresh s hs)
    refine ⟨{ id := db.nextId, travailId := workId, nomGroupe := nomG,
              modeFormation := some ModeGroupe.formateurMode,
              createurId := (db.findFormateurByCompte p.userId).map Formateur.id }, ?_, rfl⟩
    simp [createGroup, hft, htype2, hrole, htx]
  · intro hrole hmode
    obtain ⟨db2, htx⟩ := createMemberships_success db.nextId ids
      { db with
        groupes := db.groupes ++
          [{ id := db.nextId, travailId := workId, nomGroupe := nomG,
             modeFormation := some ModeGroupe.etudiantMode,
             createurId := none }]
        nextId := db.nextId + 1 }
      hnodup (fun s hs => hetu s hs) (fun s hs => hfresh s hs)
    refine ⟨{ id := db.nextId, travailId := workId, nomGroupe := nomG,
              modeFormation := some ModeGroupe.etudiantMode,
              createurId := none }, ?_, rfl⟩
    simp [createGroup, hft, htype2, hrole, hmode, htx]
  · intro hrole hmode
    simp [createGroup, hft, htype2, hrole, hmode]

/-- C5 witness: on the sample store, instructor-created and
student-created groups on the student-formed work 2 succeed with the
right modeFormation, and a student on the instructor-formed work 3 is
rejected with Forbidden. -/
theorem c5_group_creation_auth_witness :
    (∃ g, (createGroup dbUngraded ⟨30, Role.formateur⟩ 2 ⟨some "G1", some [1, 2]⟩).1 = .ok g ∧
       g.modeFormation = some ModeGroupe.formateurMode) ∧
    (∃ g, (createGroup dbUngraded ⟨10, Role.etudiant⟩ 2 ⟨some "G2", some [1, 2]⟩).1 = .ok g ∧
       g.modeFormation = some ModeGroupe.etudiantMode) ∧
    createGroup dbUngraded ⟨10, Role.etudiant⟩ 3 ⟨some "G3", some [1, 2]⟩
      = (.error .forbidden, dbUngraded) := by
  have h1 := c5_group_creation_auth dbUngraded ⟨30, Role.formateur⟩ 2
    ⟨some "G1", some [1, 2]⟩ travailColl "G1" [1, 2] rfl rfl (by decide) rfl
    (by decide) (by decide) (by decide)
  have h2 := c5_group_creation_auth dbUngraded ⟨10, Role.etudiant⟩ 2
    ⟨some "G2", some [1, 2]⟩ travailColl "G2" [1, 2] rfl rfl (by decide) rfl
    (by decide) (by decide) (by decide)
  have h3 := c5_group_creation_auth dbUngraded ⟨10, Role.etudiant⟩ 3
    ⟨some "G3", some [1, 2]⟩ travailCollInstr "G3" [1, 2] rfl rfl (by decide) rfl
    (by decide) (by decide) (by decide)
  exact ⟨h1.1 rfl, h2.2.1 rfl rfl, h3.2.2 rfl (by decide)⟩

/-- C9: group creation is atomic.  Every createGroup call either fails
with the store exactly unchanged, or succeeds having appended exactly
one group and exactly one membership row per requested member id. -/
theorem c9_group_atomic :
    ∀ (db : DB) (p : Principal) (workId : Nat) (body : GroupBody),
      ((∃ e, (createGroup db p workId body).1 = .error e) ∧
        (createGroup db p workId body).2 = db) ∨
      (∃ g ids, body.membresIds = some ids ∧
        (createGroup db p workId body).1 = .ok g ∧
        (createGroup db p workId body).2.groupes = db.groupes ++ [g] ∧
        (createGroup db p workId body).2.membres
          = db.membres ++ ids.map (fun s => { groupeId := g.id, etudiantId := s })) := by
  intro db p workId body
  obtain ⟨nomG, memIds⟩ := body
  cases nomG with
  | none => exact Or.inl ⟨⟨.missingFields, rfl⟩, rfl⟩
  | some nomG =>
    cases memIds with
    | none => exact Or.inl ⟨⟨.missingFields, rfl⟩, rfl⟩
    | some ids =>
      cases hft : db.findTravail workId with
      | none =>
        refine Or.inl ⟨⟨.notFound, ?_⟩, ?_⟩ <;> simp [createGroup, hft]
      | some travail =>
        by_cases htype : travail.typeTravail ≠ TypeTravail.collectif
        · refine Or.inl ⟨⟨.wrongWorkType, ?_⟩, ?_⟩ <;> simp [createGroup, hft, htype]
        · by_cases hforb : p.role = Role.etudiant ∧ travail.modeGroupe ≠ ModeGroupe.etudiantMode
          · refine Or.inl ⟨⟨.forbidden, ?_⟩, ?_⟩ <;> simp [createGroup, hft, htype, hforb]
          · have hred : createGroup db p workId ⟨some nomG, some ids⟩
                = (match createMemberships
                      { db with
                        groupes := db.groupes ++
                          [{ id := db.nextId, travailId := workId, nomGroupe := nomG,
                             modeFormation :=
                               if p.role = Role.formateur then some ModeGroupe.formateurMode
                               else if p.role = Role.etudiant then some ModeGroupe.etudiantMode
                               else none,
                             createurId :=
                               if p.role = Role.formateur then
                                 (db.findFormateurByCompte p.userId).map Formateur.id
                               else none }]
                        nextId := db.nextId + 1 } db.nextId ids with
                   | some db2 =>
                     (.ok { id := db.nextId, travailId := workId, nomGroupe := nomG,
                            modeFormation :=
                              if p.role = Role.formateur then some ModeGroupe.formateurMode
                              else if p.role = Role.etudiant then some ModeGroupe.etudiantMode
                              else none,
                            createurId :=
                              if p.role = Role.formateur then
                                (db.findFormateurByCompte p.userId).map Formateur.id
                              else none }, db2)
                   | none => (.error .storeConstraint, db)) := by
              simp [createGroup, hft, htype, hforb]
            cases htx : createMemberships
                { db with
                  groupes := db.groupes ++
                    [{ id := db.nextId, travailId := workId, nomGroupe := nomG,
                       modeFormation :=
                         if p.role = Role.formateur then some ModeGroupe.formateurMode
                         else if p.role = Role.etudiant then some ModeGroupe.etudiantMode
                         else none,
                       createurId :=
                         if p.role = Role.formateur then
                           (db.findFormateurByCompte p.userId).map Formateur.id
                         else none }]
                  nextId := db.nextId + 1 } db.nextId ids with
            | none =>
              rw [hred, htx]
              exact Or.inl ⟨⟨.storeConstraint, rfl⟩, rfl⟩
            | some db2 =>
              rw [hred, htx]
              have hm := createMemberships_some db.nextId ids _ _ htx
              refine Or.inr ⟨_, ids, rfl, rfl, ?_, ?_⟩
              · rw [hm.2.2.2.2.2.2.1]
              · rw [hm.1]

/-- C6: work-creation mode validation.  A Collective work whose
formation mode is absent or NON_APPLICABLE is rejected with
InvalidConfiguration and nothing is created; an Individual work with a
supplied formation mode succeeds and is stored with modeGroupe silently
normalized to NON_APPLICABLE. -/
theorem c6_work_mode_validation :
    (∀ (db : DB) (p : Principal) (body : WorkBody) (esp : Nat) (ti co : String)
       (d1 d2 : Int) (f : Formateur),
      (p.role = Role.formateur ∨ p.role = Role.directeur) →
      body.espacePedagogiqueId = some esp → body.titre = some ti →
      body.consignes = some co → body.dateDebut = some d1 → body.dateFin = some d2 →
      db.findFormateurByCompte p.userId = some f →
      body.typeTravail = some TypeTravail.collectif →
      (body.modeGroupe = none ∨ body.modeGroupe = some ModeGroupe.nonApplicable) →
      createWork db p body = (.error .invalidConfiguration, db)) ∧
    (∀ (db : DB) (p : Principal) (body : WorkBody) (esp : Nat) (ti co : String)
       (d1 d2 : Int) (f : Formateur) (m : ModeGroupe),
      (p.role = Role.formateur ∨ p.role = Role.directeur) →
      body.espacePedagogiqueId = some esp → body.titre = some ti →
      body.consignes = some co → body.dateDebut = some d1 → body.dateFin = some d2 →
      db.findFormateurByCompte p.userId = some f →
      body.typeTravail = some TypeTravail.individuel →
      body.modeGroupe = some m →
      ∃ t, createWork db p body
          = (.ok t, { db with travaux := db.travaux ++ [t], nextId := db.nextId + 1 }) ∧
        t.modeGroupe = ModeGroupe.nonApplicable ∧
        t.typeTravail = TypeTravail.individuel) := by
  constructor
  · intro db p body esp ti co d1 d2 f hrole h1 h2 h3 h4 h5 hf ht hmode
    have hrole2 : ¬(p.role ≠ Role.formateur ∧ p.role ≠ Role.directeur) := by
      rcases hrole with h | h <;> simp [h]
    rcases hmode with hm | hm <;>
      simp [createWork, hrole2, h1, h2, h3, h4, h5, hf, ht, hm]
  · intro db p body esp ti co d1 d2 f m hrole h1 h2 h3 h4 h5 hf ht hm
    have hrole2 : ¬(p.role ≠ Role.formateur ∧ p.role ≠ Role.directeur) := by
      rcases hrole with h | h <;> simp [h]
    refine ⟨{ id := db.nextId, espacePedagogiqueId := esp, titre := ti, consignes := co,
              typeTravail := TypeTravail.individuel, modeGroupe := ModeGroupe.nonApplicable,
              dateDebut := d1, dateFin := d2, fichierConsigneUrl := body.fichierConsigneUrl,
              createurId := f.id, estActif := true }, ?_, rfl, rfl⟩
    simp [createWork, hrole2, h1, h2, h3, h4, h5, hf, ht, hm]

theorem c6_work_mode_validation_witness :
    createWork dbUngraded ⟨30, Role.formateur⟩
        ⟨some 1, some "W", some "C", some TypeTravail.collectif, none, some 100, some 200, none⟩
      = (.error .invalidConfiguration, dbUngraded) ∧
    ∃ t, createWork dbUngraded ⟨30, Role.formateur⟩
          ⟨some 1, some "W", some "C", some TypeTravail.individuel,
           some ModeGroupe.etudiantMode, some 100, some 200, none⟩
        = (.ok t, { dbUngraded with
                    travaux := dbUngraded.travaux ++ [t],
                    nextId := dbUngraded.nextId + 1 }) ∧
      t.modeGroupe = ModeGroupe.nonApplicable ∧
      t.typeTravail = TypeTravail.individuel := by
  constructor
  · exact c6_work_mode_validation.1 dbUngraded ⟨30, Role.formateur⟩ _ 1 "W" "C" 100 200
      ⟨1, 30⟩ (Or.inl rfl) rfl rfl rfl rfl rfl (by decide) rfl (Or.inl rfl)
  · exact c6_work_mode_validation.2 dbUngraded ⟨30, Role.formateur⟩ _ 1 "W" "C" 100 200
      ⟨1, 30⟩ ModeGroupe.etudiantMode (Or.inl rfl) rfl rfl rfl rfl rfl (by decide) rfl rfl

/-- C8: director override.  Without an audit reason the call fails with
MissingReason and the store is unchanged; with a reason it succeeds,
updating only the supplied note / commentaire, always stamping
modificateurId / dateModification / raisonModification, retaining the
original grader reference, and touching no other evaluation. -/
theorem c8_override_audit :
    ∀ (db : DB) (p : Principal) (evalId : Nat) (body : OverrideBody) (now : Int)
      (d : Directeur) (ev : Evaluation),
      p.role = Role.directeur →
      db.findDirecteurByCompte p.userId = some d →
      db.findEvaluation evalId = some ev →
      db.evaluations.Pairwise (fun a b => a.id ≠ b.id) →
      (((body.raisonModification = none ∨ body.raisonModification = some "") →
         overrideEvaluation db p evalId body now = (.error .missingReason, db)) ∧
       (∀ r, body.raisonModification = some r → r ≠ "" →
         (∀ n, body.note = some n → 0 ≤ n ∧ n ≤ 20) →
         ∃ e1, (overrideEvaluation db p evalId body now).1 = .ok e1 ∧
           e1.note = body.note.getD ev.note ∧
           e1.commentaire
             = (match body.commentaire with | some c => some c | none => ev.commentaire) ∧
           e1.dateModification = some now ∧
           e1.modificateurId = some d.id ∧
           e1.raisonModification = some r ∧
           e1.evaluateurId = ev.evaluateurId ∧
           e1.id = ev.id ∧ e1.livraisonId = ev.livraisonId ∧
           (overrideEvaluation db p evalId body now).2.evaluations.filter
             (fun e => e.id == evalId) = [e1] ∧
           (overrideEvaluation db p evalId body now).2.evaluations.filter
             (fun e => !(e.id == evalId))
             = db.evaluations.filter (fun e => !(e.id == evalId)))) := by
  intro db p evalId body now d ev hrole hd hev huniq
  constructor
  · intro hmiss
    rcases hmiss with h | h <;> simp [overrideEvaluation, hrole, h]
  · intro r hr hrne hnote
    have hid : ev.id = evalId := by
      have := List.find?_some hev
      simpa using this
    subst hid
    have hev2 : db.evaluations.find? (fun e => e.id == ev.id) = some ev := hev
    have hmiss2 : ¬(body.raisonModification = none ∨ body.raisonModification = some "") := by
      rintro (h | h)
      · rw [hr] at h
        cases h
      · rw [hr] at h
        exact hrne (Option.some_inj.mp h)
    have hrange : (match body.note with
        | some n => decide (n < 0 ∨ 20 < n)
        | none => false) = false := by
      cases hn : body.note with
      | none => rfl
      | some n =>
        have := hnote n hn
        simp
        omega
    have hcount : (db.evaluations.filter (fun e => e.id == ev.id)).length ≤ 1 :=
      filter_key_length_le_one Evaluation.id ev.id db.evaluations huniq
    have hred : overrideEvaluation db p ev.id body now
        = (.ok { ev with
              note := body.note.getD ev.note
              commentaire := match body.commentaire with
                             | some c => some c
                             | none => ev.commentaire
              dateModification := some now
              modificateurId := some d.id
              raisonModification := body.raisonModification },
           { db with evaluations := db.evaluations.map (fun e =>
               if e.id == ev.id then
                 { ev with
                   note := body.note.getD ev.note
                   commentaire := match body.commentaire with
                                  | some c => some c
                                  | none => ev.commentaire
                   dateModification := some now
                   modificateurId := some d.id
                   raisonModification := body.raisonModification }
               else e) }) := by
      simp only [overrideEvaluation, hrole, hmiss2, hrange, hd, hev]
      simp
    have hrepl := filter_map_replace (fun e => e.id == ev.id) Evaluation.id
      ({ ev with
         note := body.note.getD ev.note
         commentaire := match body.commentaire with
                        | some c => some c
                        | none => ev.commentaire
         dateModification := some now
         modificateurId := some d.id
         raisonModification := body.raisonModification }) ev db.evaluations huniq hev2
      hcount (by simp)
    refine ⟨{ ev with
        note := body.note.getD ev.note
        commentaire := match body.commentaire with
                       | some c => some c
                       | none => ev.commentaire
        dateModification := some now
        modificateurId := some d.id
        raisonModification := body.raisonModification },
      ?_, rfl, rfl, rfl, rfl, by simp [hr], rfl, rfl, rfl, ?_, ?_⟩
    · rw [hred]
    · rw [hred]
      exact hrepl.1
    · rw [hred]
      exact hrepl.2

/-- C8 witness: overriding evaluation 6 with an empty reason fails with
MissingReason; with reason "re-checked" it succeeds, sets note 17 and
keeps the original grader (evaluateur 1) next to the overriding
director (modificateur 1). -/
theorem c8_override_audit_witness :
    overrideEvaluation dbGraded ⟨40, Role.directeur⟩ 6 ⟨some 17, none, some ""⟩ 400
      = (.error .missingReason, dbGraded) ∧
    ∃ e1, (overrideEvaluation dbGraded ⟨40, Role.directeur⟩ 6
          ⟨some 17, none, some "re-checked"⟩ 400).1 = .ok e1 ∧
      e1.note = 17 ∧
      e1.evaluateurId = some 1 ∧
      e1.modificateurId = some 1 ∧
      e1.dateModification = some 400 ∧
      e1.raisonModification = some "re-checked" := by
  have h1 := c8_override_audit dbGraded ⟨40, Role.directeur⟩ 6
    ⟨some 17, none, some ""⟩ 400 ⟨1, 40⟩
    { id := 6, livraisonId := 5, note := 15, commentaire := none,
      evaluateurId := some 1, dateEvaluation := 160,
      dateModification := none, modificateurId := none, raisonModification := none }
    rfl (by decide) (by decide) (by simp [dbGraded])
  have h2 := c8_override_audit dbGraded ⟨40, Role.directeur⟩ 6
    ⟨some 17, none, some "re-checked"⟩ 400 ⟨1, 40⟩
    { id := 6, livraisonId := 5, note := 15, commentaire := none,
      evaluateurId := some 1, dateEvaluation := 160,
      dateModification := none, modificateurId := none, raisonModification := none }
    rfl (by decide) (by decide) (by simp [dbGraded])
  refine ⟨h1.1 (Or.inr rfl), ?_⟩
  obtain ⟨e1, hok, hnote, hcomm, hdate, hmod, hraison, hgrader, _, _, _, _⟩ :=
    h2.2 "re-checked" rfl (by decide) (by intro n hn; cases Option.some_inj.mp hn; omega)
  exact ⟨e1, hok, hnote, hgrader, hmod, hdate, hraison⟩

/-- C4 counterexample: on the graded sample store, a student who is not
the owner amends livraison 5 (which has an evaluation) and gets
Forbidden, not AlreadyEvaluated — the ownership check runs first. -/
theorem c4_counterexample_forbidden_first :
    (amendLivraison dbGraded ⟨20, Role.etudiant⟩ 5 ⟨some "y", none⟩ 300).1
      = .error .forbidden ∧
    (amendLivraison dbGraded ⟨20, Role.etudiant⟩ 5 ⟨some "y", none⟩ 300).1
      ≠ .error .alreadyEvaluated ∧
    0 < (dbGraded.evaluationsFor 5).length := by
  refine ⟨rfl, ?_, by decide⟩
  intro h
  rw [show (amendLivraison dbGraded ⟨20, Role.etudiant⟩ 5 ⟨some "y", none⟩ 300).1
      = Except.error ApiError.forbidden from rfl] at h
  simp at h

/-- C4 (amended): once a livraison has an evaluation, every amend or
withdraw call fails and leaves the store unchanged; the error is
AlreadyEvaluated for a student caller with ownership access, Forbidden
for a student without access, and the role gate's Forbidden for any
non-student caller. -/
theorem c4_amend_withdraw_blocked :
    ∀ (db : DB) (p : Principal) (livId : Nat) (body : SubmissionBody) (now : Int)
      (l : Livraison),
      db.findLivraison livId = some l →
      0 < (db.evaluationsFor livId).length →
      ((amendLivraison db p livId body now).2 = db ∧
       (withdrawLivraison db p livId).2 = db ∧
       (p.role = Role.etudiant → hasAccessLivraison db l p.userId = true →
          (amendLivraison db p livId body now).1 = .error .alreadyEvaluated ∧
          (withdrawLivraison db p livId).1 = .error .alreadyEvaluated) ∧
       (p.role = Role.etudiant → hasAccessLivraison db l p.userId = false →
          (amendLivraison db p livId body now).1 = .error .forbidden ∧
          (withdrawLivraison db p livId).1 = .error .forbidden) ∧
       (p.role ≠ Role.etudiant →
          (amendLivraison db p livId body now).1 = .error .roleForbidden ∧
          (withdrawLivraison db p livId).1 = .error .roleForbidden)) := by
  intro db p livId body now l hfind hev
  by_cases hrole : p.role = Role.etudiant
  · by_cases hacc : hasAccessLivraison db l p.userId = true
    · refine ⟨?_, ?_, fun _ _ => ⟨?_, ?_⟩, fun _ hf => ?_, fun hne => absurd hrole hne⟩ <;>
        simp [amendLivraison, withdrawLivraison, hrole, hfind, hacc, hev]
      rw [hacc] at hf
      cases hf
    · have hacc2 : hasAccessLivraison db l p.userId = false := by
        simpa using hacc
      refine ⟨?_, ?_, fun _ ht => ?_, fun _ _ => ⟨?_, ?_⟩, fun hne => absurd hrole hne⟩ <;>
        try simp [amendLivraison, withdrawLivraison, hrole, hfind, hacc2, hev]
      rw [hacc2] at ht
      cases ht
  · refine ⟨?_, ?_, fun hr => absurd hr hrole, fun hr => absurd hr hrole, fun _ => ⟨?_, ?_⟩⟩ <;>
      simp [amendLivraison, withdrawLivraison, hrole]

/-- C4 witness: the owner (student 1, account 10) amending or
withdrawing the evaluated livraison 5 gets AlreadyEvaluated and the
store is unchanged. -/
theorem c4_amend_withdraw_blocked_witness :
    (amendLivraison dbGraded ⟨10, Role.etudiant⟩ 5 ⟨some "y", none⟩ 300).2 = dbGraded ∧
    (withdrawLivraison dbGraded ⟨10, Role.etudiant⟩ 5).2 = dbGraded ∧
    (amendLivraison dbGraded ⟨10, Role.etudiant⟩ 5 ⟨some "y", none⟩ 300).1
      = .error .alreadyEvaluated ∧
    (withdrawLivraison dbGraded ⟨10, Role.etudiant⟩ 5).1 = .error .alreadyEvaluated := by
  have h := c4_amend_withdraw_blocked dbGraded ⟨10, Role.etudiant⟩ 5 ⟨some "y", none⟩ 300
    livraison5 (by decide) (by decide)
  obtain ⟨h1, h2, h3, _, _⟩ := h
  have h4 := h3 rfl (by decide)
  exact ⟨h1, h2, h4.1, h4.2⟩

/-- C10: a successful amend refreshes contenu / fichierUrl /
dateLivraison but keeps the livraison's statut exactly as it was, for
every current time (in particular past the window end), and leaves all
other livraisons untouched. -/
theorem c10_amend_keeps_statut :
    ∀ (db : DB) (p : Principal) (livId : Nat) (body : SubmissionBody) (now : Int)
      (l : Livraison),
      p.role = Role.etudiant →
      db.findLivraison livId = some l →
      hasAccessLivraison db l p.userId = true →
      (db.evaluationsFor livId).length = 0 →
      db.livraisons.Pairwise (fun a b => a.id ≠ b.id) →
      ∃ l1, (amendLivraison db p livId body now).1 = .ok l1 ∧
        l1.statut = l.statut ∧
        l1.contenu = (match body.contenu with | some c => some c | none => l.contenu) ∧
        l1.fichierUrl = (match body.fichierUrl with | some u => some u | none => l.fichierUrl) ∧
        l1.dateLivraison = now ∧
        (amendLivraison db p livId body now).2.livraisons.filter
          (fun x => x.id == livId) = [l1] ∧
        (amendLivraison db p livId body now).2.livraisons.filter
          (fun x => !(x.id == livId))
          = db.livraisons.filter (fun x => !(x.id == livId)) := by
  intro db p livId body now l hrole hfind hacc hev huniq
  have hncount : ¬ 0 < (db.evaluationsFor livId).length := by omega
  have hl : l.id = livId := by
    have := List.find?_some hfind
    simpa using this
  subst hl
  have hfind2 : db.livraisons.find? (fun x => x.id == l.id) = some l := hfind
  have hcount : (db.livraisons.filter (fun x => x.id == l.id)).length ≤ 1 :=
    filter_key_length_le_one Livraison.id l.id db.livraisons huniq
  have hred : amendLivraison db p l.id body now
      = (.ok { l with
            contenu := match body.contenu with | some c => some c | none => l.contenu
            fichierUrl := match body.fichierUrl with | some u => some u | none => l.fichierUrl
            dateLivraison := now },
         { db with livraisons := db.livraisons.map (fun x =>
             if x.id == l.id then
               { l with
                 contenu := match body.contenu with | some c => some c | none => l.contenu
                 fichierUrl := match body.fichierUrl with | some u => some u | none => l.fichierUrl
                 dateLivraison := now }
             else x) }) := by
    simp only [amendLivraison, hrole, hfind, hacc, hncount]
    simp
  have hrepl := filter_map_replace (fun x => x.id == l.id) Livraison.id
    ({ l with
       contenu := match body.contenu with | some c => some c | none => l.contenu
       fichierUrl := match body.fichierUrl with | some u => some u | none => l.fichierUrl
       dateLivraison := now }) l db.livraisons huniq hfind2 hcount (by simp)
  refine ⟨{ l with
      contenu := match body.contenu with | some c => some c | none => l.contenu
      fichierUrl := match body.fichierUrl with | some u => some u | none => l.fichierUrl
      dateLivraison := now }, ?_, rfl, rfl, rfl, rfl, ?_, ?_⟩
  · rw [hred]
  · rw [hred]
    exact hrepl.1
  · rw [hred]
    exact hrepl.2

/-- C10 witness: amending livraison 5 (statut LIVRE) at time 300, well
past the window end 200, keeps statut LIVRE. -/
theorem c10_amend_keeps_statut_witness :
    ∃ l1, (amendLivraison dbUngraded ⟨10, Role.etudiant⟩ 5 ⟨some "y", none⟩ 300).1 = .ok l1 ∧
      l1.statut = livraison5.statut ∧
      l1.contenu = some "y" ∧
      l1.fichierUrl = livraison5.fichierUrl ∧
      l1.dateLivraison = 300 ∧
      (amendLivraison dbUngraded ⟨10, Role.etudiant⟩ 5 ⟨some "y", none⟩ 300).2.livraisons.filter
        (fun x => x.id == 5) = [l1] ∧
      (amendLivraison dbUngraded ⟨10, Role.etudiant⟩ 5 ⟨some "y", none⟩ 300).2.livraisons.filter
        (fun x => !(x.id == 5))
        = dbUngraded.livraisons.filter (fun x => !(x.id == 5)) :=
  c10_amend_keeps_statut dbUngraded ⟨10, Role.etudiant⟩ 5 ⟨some "y", none⟩ 300
    livraison5 rfl (by decide) (by decide) (by decide) (by simp [dbUngraded])

/-- C1 witness: concrete instances of both the AlreadyGraded failure
and the first-call success. -/
theorem c1_grade_single_shot_witness :
    grade dbGraded ⟨30, Role.formateur⟩ ⟨some 5, some 15, none⟩ 170
      = (.error .alreadyGraded, dbGraded) ∧
    ∃ ev : Evaluation,
      grade dbUngraded ⟨30, Role.formateur⟩ ⟨some 5, some 15, none⟩ 160
        = (.ok ev, { dbUngraded with
                     evaluations := dbUngraded.evaluations ++ [ev],
                     nextId := dbUngraded.nextId + 1 }) ∧
      ev.livraisonId = 5 ∧
      (((grade dbUngraded ⟨30, Role.formateur⟩ ⟨some 5, some 15, none⟩ 160).2).evaluationsFor 5).length = 1 := by
  constructor
  · exact c1_grade_single_shot.1 dbGraded ⟨30, Role.formateur⟩ ⟨some 5, some 15, none⟩ 170
      5 15 livraison5 (Or.inl rfl) rfl rfl (by decide) (by decide) (by decide) (by decide)
  · exact c1_grade_single_shot.2.2 dbUngraded ⟨30, Role.formateur⟩ ⟨some 5, some 15, none⟩ 160
      5 15 livraison5 (Or.inl rfl) rfl rfl (by decide) (by decide) (by decide) (by decide)
      (Or.inl (by decide))

end EduPlatform
